import Mathlib

/-!
Verification development for the world-tutor reasoning engine.

This file gives a shallow embedding, in Lean, of the reasoning kernel of the
repository: the knowledge-graph store (src/engine/store/knowledge-graph.ts),
the working memory (src/engine/memory/working-memory.ts), the seven demons
(parse, relate, infer, decompose, analogize, question, learn) and the
hypervisor scheduler (src/engine/hypervisor/scheduler.ts), together with
theorems that settle the claims about them.

Modelling conventions, used throughout:

- JavaScript numbers (relation weights, slot confidences) are modelled as
  exact rationals.  Numeric literals from the source such as 0.6 are given as
  reduced rationals (for example 3/5) so that comparisons on them evaluate
  inside the kernel.
- JavaScript Maps are modelled as association lists in insertion order, which
  is the iteration order of a JS Map.  Array.prototype.sort (stable per the
  ECMAScript specification) is modelled with List.insertionSort, which is the
  stable sort of the same comparison.
- nanoid ids are modelled by a deterministic fresh-id counter threaded through
  the scheduler state, and Date.now() by a logical clock that advances once
  per scheduler tick (within one tick all writes share a millisecond, which is
  the typical behaviour of the source).  Math.floor(Math.random() * n) is
  modelled by a scheduler-state field randIdx reduced mod n.
- Dynamic slot contents (slot.content is untyped in the source) are modelled
  by an explicit Json value type; the unchecked TypeScript casts that read a
  content become total decoding functions with neutral defaults.
- The scheduler keeps, besides the fields of the source, a ghost field
  writeLog listing every slot ever written during a turn.  It is pure
  instrumentation: nothing in the modelled control flow reads it.  It lets
  theorems speak about slots that existed at some point during a turn.
- Demon bodies are pure in the source; their model returns an Except so that
  the scheduler try/catch around a demon invocation (and a demon that throws)
  is representable.  The seven concrete demons always return Except.ok.
-/

namespace WorldTutor

/-! ## Exact rational literals for the numeric constants of the source -/

/-- Numeric literal 0.3 of the source. -/
def q03 : ℚ := ⟨3, 10, by norm_num, by norm_num⟩

/-- Numeric literal 0.4 of the source. -/
def q04 : ℚ := ⟨2, 5, by norm_num, by norm_num⟩

/-- Numeric literal 0.5 of the source. -/
def q05 : ℚ := ⟨1, 2, by norm_num, by norm_num⟩

/-- Numeric literal 0.6 of the source. -/
def q06 : ℚ := ⟨3, 5, by norm_num, by norm_num⟩

/-- Numeric literal 0.7 of the source. -/
def q07 : ℚ := ⟨7, 10, by norm_num, by norm_num⟩

/-- Numeric literal 0.8 of the source. -/
def q08 : ℚ := ⟨4, 5, by norm_num, by norm_num⟩

/-- Numeric literal 0.85 of the source. -/
def q085 : ℚ := ⟨17, 20, by norm_num, by norm_num⟩

/-- Numeric literal 0.9 of the source. -/
def q09 : ℚ := ⟨9, 10, by norm_num, by norm_num⟩

/-! ## Json values

Model of the dynamic JavaScript values that flow through slot contents and
through JSON serialization.  Objects are ordered association lists, matching
the property order of JS object literals. -/

inductive Json where
  | null : Json
  | bool (b : Bool) : Json
  | num (q : ℚ) : Json
  | str (s : String) : Json
  | arr (elts : List Json) : Json
  | obj (fields : List (String × Json)) : Json

/-- Property lookup on a Json object, first matching key. -/
def jGet : Json → String → Option Json
  | .obj fields, key => go fields key
  | _, _ => none
where go : List (String × Json) → String → Option Json
  | [], _ => none
  | (k, v) :: rest, key => if k = key then some v else go rest key

/-- Read a string-valued property; the neutral default models the unchecked
TypeScript cast reading a missing or non-string field. -/
def jGetStr (j : Json) (key : String) : String :=
  match jGet j key with
  | some (.str s) => s
  | _ => ""

/-- Read a numeric property with neutral default 0. -/
def jGetNum (j : Json) (key : String) : ℚ :=
  match jGet j key with
  | some (.num q) => q
  | _ => 0

/-- Read an array-valued property with neutral default []. -/
def jGetArr (j : Json) (key : String) : List Json :=
  match jGet j key with
  | some (.arr xs) => xs
  | _ => []

/-- Model of the JavaScript String(x) coercion as used in the source.  Every
reachable use in the modelled code paths applies it to a string content; the
other branches carry fixed markers (String of a plain object really is the
fixed text with brackets in JS, numbers and arrays are never stringified by
the modelled paths). -/
def jStr : Json → String
  | .str s => s
  | .null => "null"
  | .bool true => "true"
  | .bool false => "false"
  | .num _ => "[number]"
  | .arr _ => "[array]"
  | .obj _ => "[object Object]"

/-- A Json string list, used to decode contents that the source treats as
string arrays such as unknown_concepts and knowledge_gaps. -/
def jStrList : Json → List String
  | .arr xs => xs.map jStr
  | _ => []

/-! ## Character-level text utilities

The source manipulates text with regexes and String methods.  These are
modelled on List Char with structural recursion so that every concrete run
evaluates inside the kernel (core String functions such as toLower are
defined by well-founded recursion and do not). -/

/-- The apostrophe character, U+0027. -/
def aposC : Char := Char.ofNat 39

/-- The apostrophe as a one-character string. -/
def aposS : String := String.singleton aposC

/-- Build a contraction such as the stop word for don + t. -/
def wApos (a b : String) : String := a ++ aposS ++ b

/-- JavaScript whitespace test (ASCII portion, which is all the inputs use). -/
def isWs (c : Char) : Bool :=
  c = ' ' || c = '\t' || c = '\n' || c = '\r'

/-- JavaScript regex word character: [A-Za-z0-9_]. -/
def isWordChar (c : Char) : Bool :=
  ('a' ≤ c && c ≤ 'z') || ('A' ≤ c && c ≤ 'Z') || ('0' ≤ c && c ≤ '9') || c = '_'

/-- Word character or whitespace, the character class of the lazy capture
groups in the learn demon's relation patterns. -/
def isWordOrSpace (c : Char) : Bool := isWordChar c || isWs c

/-- Lower-casing, char by char (model of String.prototype.toLowerCase on the
ASCII inputs the engine handles). -/
def lowerChars (l : List Char) : List Char := l.map Char.toLower

/-- String.prototype.toLowerCase. -/
def toLowerS (s : String) : String := String.mk (lowerChars s.data)

/-- Drop leading whitespace. -/
def dropWsL (l : List Char) : List Char := l.dropWhile (fun c => isWs c)

/-- String.prototype.trim. -/
def trimChars (l : List Char) : List Char :=
  ((dropWsL l).reverse.dropWhile (fun c => isWs c)).reverse

/-- String.prototype.trim on String. -/
def trimS (s : String) : String := String.mk (trimChars s.data)

/-- Lower-case then trim, the label normalization used by the graph store. -/
def normLabel (s : String) : String := trimS (toLowerS s)

/-- Is the needle a contiguous sub-sequence of the haystack (model of
String.prototype.includes / SQL LIKE with wildcards on both sides). -/
def containsSeg (hay needle : List Char) : Bool :=
  match hay with
  | [] => needle.isEmpty
  | _ :: rest => needle.isPrefixOf hay || containsSeg rest needle

/-- Does the string end with the given suffix (model of endsWith). -/
def endsWithL (l suffixL : List Char) : Bool :=
  suffixL.isSuffixOf l

/-- Split on a separator character; an empty input yields one empty field,
like JavaScript split. -/
def splitOnChar (sep : Char) (l : List Char) : List (List Char) :=
  go l []
where go : List Char → List Char → List (List Char)
  | [], acc => [acc.reverse]
  | c :: rest, acc =>
    if c = sep then acc.reverse :: go rest []
    else go rest (c :: acc)

/-- Collapse every maximal whitespace run to one space (model of the
replace of a whitespace-plus regex by one space).  The Bool argument records
whether the previous character was whitespace. -/
def collapseWsGo : Bool → List Char → List Char
  | _, [] => []
  | inWs, c :: rest =>
    if isWs c then
      if inWs then collapseWsGo true rest else ' ' :: collapseWsGo true rest
    else c :: collapseWsGo false rest

/-- Collapse every maximal whitespace run to one space. -/
def collapseWs (l : List Char) : List Char := collapseWsGo false l

/-! ## A small matcher for the fixed regexes of the source

The intent / subject regexes of the parse demon are alternations of simple
sequences: literals, whitespace runs, one optional character, and word
boundaries.  A pattern is a list of tokens; a regex alternation is a list of
patterns tried in order.  Backtracking is needed only for the optional
character, which the matcher implements. -/

inductive Tok where
  | lit (s : String)
  | ws
  | wsStar
  | opt (c : Char)
  | wb

/-- Consume an exact literal from the input. -/
def litConsume : List Char → Option Char → List Char → Option (Option Char × List Char)
  | [], prev, l => some (prev, l)
  | c :: cs, _, d :: l => if c = d then litConsume cs (some c) l else none
  | _ :: _, _, [] => none

/-- Match a token sequence at the start of the input.  The Option Char is the
character just before the current position (needed for word boundaries);
returns the last consumed character and the remaining input. -/
def matchToks : List Tok → Option Char → List Char → Option (Option Char × List Char)
  | [], prev, l => some (prev, l)
  | .lit s :: toks, prev, l =>
    match litConsume s.data prev l with
    | some (prev', l') => matchToks toks prev' l'
    | none => none
  | .ws :: toks, _, l =>
    match l with
    | c :: rest =>
      if isWs c then matchToks toks (some ' ') (rest.dropWhile (fun d => isWs d))
      else none
    | [] => none
  | .wsStar :: toks, prev, l =>
    match l with
    | c :: rest =>
      if isWs c then matchToks toks (some ' ') (rest.dropWhile (fun d => isWs d))
      else matchToks toks prev l
    | [] => matchToks toks prev l
  | .opt c :: toks, prev, l =>
    (match l with
     | d :: rest =>
       if c = d then
         match matchToks toks (some c) rest with
         | some r => some r
         | none => matchToks toks prev l
       else matchToks toks prev l
     | [] => matchToks toks prev l)
  | .wb :: toks, prev, l =>
    let pw := match prev with | some c => isWordChar c | none => false
    let nw := match l with | c :: _ => isWordChar c | [] => false
    if pw ≠ nw then matchToks toks prev l else none

/-- Does some alternative match at the start of the input (model of an
anchored regex test). -/
def startMatch (alts : List (List Tok)) (l : List Char) : Bool :=
  alts.any (fun toks => (matchToks toks none l).isSome)

/-- Does some alternative match anywhere in the input (model of an unanchored
regex test); prev carries the character before the current position. -/
def searchToksFrom (alts : List (List Tok)) : Option Char → List Char → Bool
  | prev, l =>
    if alts.any (fun toks => (matchToks toks prev l).isSome) then true
    else
      match l with
      | [] => false
      | c :: rest => searchToksFrom alts (some c) rest

/-- Unanchored regex test from the beginning of the input. -/
def searchMatch (alts : List (List Tok)) (l : List Char) : Bool :=
  searchToksFrom alts none l

/-- Leftmost position at which some alternative matches; returns the input
remaining after the match (used by the question-focus extractor whose
patterns are unanchored prefixes followed by a capture group). -/
def findAfter (alts : List (List Tok)) : Option Char → List Char → Option (List Char)
  | prev, l =>
    match alts.findSome? (fun toks => matchToks toks prev l) with
    | some (_, rest) => some rest
    | none =>
      match l with
      | [] => none
      | c :: rest => findAfter alts (some c) rest

/-! ## Working memory (src/engine/memory/working-memory.ts) -/

/-- A slot in working memory. -/
structure MemSlot where
  id : String
  noun_id : Option String := none
  content : Json
  tag : String
  confidence : ℚ
  source_demon : String
  ttl : Nat
  created_at : Nat

/-- The data a demon supplies for a slot to write: a MemSlot without id and
created_at, which writeSlot fills in. -/
structure SlotSpec where
  noun_id : Option String := none
  content : Json
  tag : String
  confidence : ℚ
  source_demon : String
  ttl : Nat

/-- The full working-memory state: slots in Map insertion order, the ordered
focus list, and the tick counter. -/
structure WorkingMemory where
  slots : List MemSlot
  focus : List String
  tick : Nat

/-- A fresh, empty working memory. -/
def createWorkingMemory : WorkingMemory := { slots := [], focus := [], tick := 0 }

/-- Map.set semantics on the slot list: replace in place when the id exists,
append otherwise. -/
def setSlot (slots : List MemSlot) (s : MemSlot) : List MemSlot :=
  match slots with
  | [] => [s]
  | t :: rest => if t.id = s.id then s :: rest else t :: setSlot rest s

/-- Write a slot into working memory.  The id (model of nanoid) and the
creation time (model of Date.now) are supplied by the scheduler. -/
def writeSlot (mem : WorkingMemory) (spec : SlotSpec) (id : String) (now : Nat) :
    WorkingMemory × MemSlot :=
  let full : MemSlot :=
    { id := id, noun_id := spec.noun_id, content := spec.content, tag := spec.tag,
      confidence := spec.confidence, source_demon := spec.source_demon,
      ttl := spec.ttl, created_at := now }
  ({ mem with slots := setSlot mem.slots full }, full)

/-- Find all slots with a tag, in insertion order. -/
def findByTag (mem : WorkingMemory) (tag : String) : List MemSlot :=
  mem.slots.filter (fun s => s.tag = tag)

/-- Most recent slot with a tag: maximum created_at, first such slot in
iteration order on ties (the source compares with a strict greater-than). -/
def latestByTag (mem : WorkingMemory) (tag : String) : Option MemSlot :=
  go (findByTag mem tag) none
where go : List MemSlot → Option MemSlot → Option MemSlot
  | [], best => best
  | s :: rest, best =>
    match best with
    | none => go rest (some s)
    | some b => if s.created_at > b.created_at then go rest (some s) else go rest (some b)

/-- Evict a slot by id; also removes it from focus.  Returns whether the slot
was present. -/
def evictSlot (mem : WorkingMemory) (id : String) : WorkingMemory × Bool :=
  let present := mem.slots.any (fun s => s.id = id)
  ({ mem with slots := mem.slots.filter (fun s => ¬ s.id = id),
              focus := mem.focus.filter (fun f => ¬ f = id) }, present)

/-- Set the focus list, silently dropping ids not present in slots. -/
def setFocus (mem : WorkingMemory) (slotIds : List String) : WorkingMemory :=
  { mem with focus := slotIds.filter (fun id => mem.slots.any (fun s => s.id = id)) }

/-- Advance the tick counter and decay TTLs: decrement each positive ttl and
evict the slots that thereby reach zero; ttl-zero slots are untouched. -/
def tickMemory (mem : WorkingMemory) : WorkingMemory × List String :=
  let evicted := (mem.slots.filter (fun s => s.ttl = 1)).map (fun s => s.id)
  let slots := (mem.slots.filter (fun s => ¬ s.ttl = 1)).map
    (fun s => if s.ttl > 0 then { s with ttl := s.ttl - 1 } else s)
  let focus := if evicted.length > 0
    then mem.focus.filter (fun id => ¬ evicted.contains id)
    else mem.focus
  ({ slots := slots, focus := focus, tick := mem.tick + 1 }, evicted)

/-- Eviction sort key: focused slots after unfocused, then ascending
confidence, then ascending age (the comparator of enforceLimit). -/
def evictKey (focus : List String) (s : MemSlot) : Nat × ℚ × Nat :=
  (if focus.contains s.id then 1 else 0, s.confidence, s.created_at)

/-- The lexicographic at-most relation of the enforceLimit comparator.
Array.prototype.sort is stable, so sorting by the comparator equals the
stable insertion sort by this relation. -/
def evictLE (focus : List String) (a b : MemSlot) : Prop :=
  (evictKey focus a).1 < (evictKey focus b).1 ∨
    ((evictKey focus a).1 = (evictKey focus b).1 ∧
      ((evictKey focus a).2.1 < (evictKey focus b).2.1 ∨
        ((evictKey focus a).2.1 = (evictKey focus b).2.1 ∧
          (evictKey focus a).2.2 ≤ (evictKey focus b).2.2)))

instance (focus : List String) : DecidableRel (evictLE focus) := fun a b => by
  unfold evictLE; infer_instance

instance (focus : List String) : IsTotal MemSlot (evictLE focus) := by
  constructor
  intro a b
  unfold evictLE
  rcases lt_trichotomy (evictKey focus a).1 (evictKey focus b).1 with h | h | h
  · exact Or.inl (Or.inl h)
  · rcases lt_trichotomy (evictKey focus a).2.1 (evictKey focus b).2.1 with h2 | h2 | h2
    · exact Or.inl (Or.inr ⟨h, Or.inl h2⟩)
    · rcases le_total (evictKey focus a).2.2 (evictKey focus b).2.2 with h3 | h3
      · exact Or.inl (Or.inr ⟨h, Or.inr ⟨h2, h3⟩⟩)
      · exact Or.inr (Or.inr ⟨h.symm, Or.inr ⟨h2.symm, h3⟩⟩)
    · exact Or.inr (Or.inr ⟨h.symm, Or.inl h2⟩)
  · exact Or.inr (Or.inl h)

instance (focus : List String) : IsTrans MemSlot (evictLE focus) := by
  constructor
  intro a b c hab hbc
  unfold evictLE at *
  rcases hab with h1 | ⟨e1, h1⟩
  · rcases hbc with h2 | ⟨e2, _⟩
    · exact Or.inl (h1.trans h2)
    · exact Or.inl (e2 ▸ h1)
  · rcases hbc with h2 | ⟨e2, h2⟩
    · exact Or.inl (e1 ▸ h2)
    · refine Or.inr ⟨e1.trans e2, ?_⟩
      rcases h1 with h1 | ⟨f1, h1⟩
      · rcases h2 with h2 | ⟨f2, _⟩
        · exact Or.inl (h1.trans h2)
        · exact Or.inl (f2 ▸ h1)
      · rcases h2 with h2 | ⟨f2, h2⟩
        · exact Or.inl (f1 ▸ h2)
        · exact Or.inr ⟨f1.trans f2, h1.trans h2⟩

/-- The while loop of enforceLimit: walk the sorted candidates, deleting one
slot per step while the size still exceeds the bound. -/
def evictLoop : List MemSlot → WorkingMemory → Nat → WorkingMemory × List String
  | [], mem, _ => (mem, [])
  | s :: rest, mem, maxSlots =>
    if mem.slots.length > maxSlots then
      let mem' := { mem with slots := mem.slots.filter (fun t => ¬ t.id = s.id) }
      let r := evictLoop rest mem' maxSlots
      (r.1, s.id :: r.2)
    else (mem, [])

/-- Enforce the slot bound by evicting the sorted candidates (unfocused
first, then lowest confidence, then oldest) until the size fits. -/
def enforceLimit (mem : WorkingMemory) (maxSlots : Nat) : WorkingMemory × List String :=
  if mem.slots.length ≤ maxSlots then (mem, [])
  else
    let sorted := List.insertionSort (evictLE mem.focus) mem.slots
    let r := evictLoop sorted mem maxSlots
    ({ r.1 with focus := r.1.focus.filter (fun id => ¬ r.2.contains id) }, r.2)

/-! ## Working-memory serialization (serialize / deserialize) -/

/-- JSON encoding of one slot, fields in the property order of writeSlot;
JSON.stringify drops an undefined noun_id. -/
def slotToJson (s : MemSlot) : Json :=
  .obj ([("id", Json.str s.id)] ++
    (match s.noun_id with | some n => [("noun_id", Json.str n)] | none => []) ++
    [("content", s.content), ("tag", Json.str s.tag),
     ("confidence", Json.num s.confidence),
     ("source_demon", Json.str s.source_demon),
     ("ttl", Json.num (s.ttl : ℚ)), ("created_at", Json.num (s.created_at : ℚ))])

/-- Serialize a working memory to the JSON tree that JSON.stringify of
the object with slots, focus and tick fields produces. -/
def serialize (mem : WorkingMemory) : Json :=
  .obj [("slots", Json.obj (mem.slots.map (fun s => (s.id, slotToJson s)))),
        ("focus", Json.arr (mem.focus.map Json.str)),
        ("tick", Json.num (mem.tick : ℚ))]

/-- Decode a JSON number that denotes a non-negative integer. -/
def jNat? : Json → Option Nat
  | .num q => if q.den = 1 ∧ 0 ≤ q.num then some q.num.toNat else none
  | _ => none

/-- Decode one serialized slot back into a MemSlot. -/
def slotOfJson (j : Json) : Option MemSlot :=
  match jGet j "id", jGet j "content", jGet j "tag", jGet j "confidence",
        jGet j "source_demon", jGet j "ttl", jGet j "created_at" with
  | some (.str id), some content, some (.str tag), some (.num conf),
      some (.str sd), some ttlJ, some caJ =>
    match jNat? ttlJ, jNat? caJ with
    | some ttl, some ca =>
      let noun_id := match jGet j "noun_id" with
        | some (.str n) => some n
        | _ => none
      some { id := id, noun_id := noun_id, content := content, tag := tag,
             confidence := conf, source_demon := sd, ttl := ttl, created_at := ca }
    | _, _ => none
  | _, _, _, _, _, _, _ => none

/-- Decode the slots object (Map of Object.entries of the parsed slots). -/
def slotsOfEntries : List (String × Json) → Option (List MemSlot)
  | [] => some []
  | (_, v) :: rest =>
    match slotOfJson v, slotsOfEntries rest with
    | some s, some ss => some (s :: ss)
    | _, _ => none

/-- Decode the focus array. -/
def focusOfJson : List Json → Option (List String)
  | [] => some []
  | .str s :: rest =>
    match focusOfJson rest with
    | some ss => some (s :: ss)
    | none => none
  | _ :: _ => none

/-- Restore a working memory from its serialized JSON tree. -/
def deserialize (j : Json) : Option WorkingMemory :=
  match jGet j "slots", jGet j "focus", jGet j "tick" with
  | some (.obj entries), some (.arr focusJ), some tickJ =>
    match slotsOfEntries entries, focusOfJson focusJ, jNat? tickJ with
    | some slots, some focus, some tick =>
      some { slots := slots, focus := focus, tick := tick }
    | _, _, _ => none
  | _, _, _ => none

/-! ## The knowledge-graph store (src/engine/store/knowledge-graph.ts)

The SQLite tables become lists in insertion order (SQLite scans rowid tables
in insertion order when no ORDER BY is given).  nanoid ids become counter
ids and Date.now becomes a store clock that advances on every insert. -/

/-- Decimal digits of a natural number, with explicit structural fuel. -/
def digitsGo : Nat → Nat → List Char → List Char
  | 0, _, acc => acc
  | _ + 1, 0, acc => acc
  | fuel + 1, n, acc => digitsGo fuel (n / 10) (Char.ofNat (48 + n % 10) :: acc)

/-- Decimal representation of a natural number (kernel-computable). -/
def natStr (n : Nat) : String :=
  if n = 0 then "0" else String.mk (digitsGo (n + 1) n [])

/-- A node of the graph. -/
structure Noun where
  id : String
  label : String
  type : String
  properties : Json
  created_at : Nat

/-- A directed typed weighted edge of the graph. -/
structure Relation where
  id : String
  from_id : String
  to_id : String
  type : String
  weight : ℚ
  context_id : Option String
  properties : Json
  created_at : Nat

/-- The persistent store state: the two tables plus the id counter and the
clock that model nanoid and Date.now. -/
structure Store where
  nouns : List Noun
  relations : List Relation
  nextId : Nat
  clock : Nat

/-- An empty store. -/
def emptyStore : Store := { nouns := [], relations := [], nextId := 0, clock := 0 }

/-- Insert a new noun row; the label is lower-cased and trimmed. -/
def createNoun (st : Store) (label : String) (type : String) (properties : Json) :
    Noun × Store :=
  let noun : Noun :=
    { id := "n" ++ natStr st.nextId, label := normLabel label, type := type,
      properties := properties, created_at := st.clock }
  (noun, { st with nouns := st.nouns ++ [noun], nextId := st.nextId + 1,
                   clock := st.clock + 1 })

/-- Exact label lookup (first matching row). -/
def findNoun (st : Store) (label : String) : Option Noun :=
  st.nouns.find? (fun n => n.label = normLabel label)

/-- Lookup by id. -/
def findNounById (st : Store) (id : String) : Option Noun :=
  st.nouns.find? (fun n => n.id = id)

/-- Case-insensitive substring search, most recent first, bounded. -/
def searchNouns (st : Store) (q : String) (limit : Nat) : List Noun :=
  ((List.insertionSort (fun a b : Noun => b.created_at ≤ a.created_at)
      (st.nouns.filter (fun n => containsSeg n.label.data (normLabel q).data))).take limit)

/-- Get or create a noun; an existing row keeps its type and properties. -/
def ensureNoun (st : Store) (label : String) (type : String) (properties : Json) :
    Noun × Store :=
  match findNoun st label with
  | some n => (n, st)
  | none => createNoun st label type properties

/-- Insert a new relation row; duplicates are permitted (multigraph). -/
def createRelation (st : Store) (fromId toId type : String) (weight : ℚ)
    (contextId : Option String) (properties : Json) : Relation × Store :=
  let rel : Relation :=
    { id := "n" ++ natStr st.nextId, from_id := fromId, to_id := toId, type := type,
      weight := weight, context_id := contextId, properties := properties,
      created_at := st.clock }
  (rel, { st with relations := st.relations ++ [rel], nextId := st.nextId + 1,
                  clock := st.clock + 1 })

/-- Result of link: the two nouns, the created relation, and the new store. -/
structure LinkResult where
  fromN : Noun
  toN : Noun
  relation : Relation
  store : Store

/-- Link two nouns by label, creating the nouns if absent. -/
def link (st : Store) (fromLabel relType toLabel : String) (weight : ℚ := 1)
    (contextLabel : Option String := none) : LinkResult :=
  let (fromN, st1) := ensureNoun st fromLabel "unknown" (Json.obj [])
  let (toN, st2) := ensureNoun st1 toLabel "unknown" (Json.obj [])
  let (ctx, st3) :=
    match contextLabel with
    | some c =>
      let (n, st') := ensureNoun st2 c "context" (Json.obj [])
      (some n.id, st')
    | none => (none, st2)
  let (rel, st4) := createRelation st3 fromN.id toN.id relType weight ctx (Json.obj [])
  { fromN := fromN, toN := toN, relation := rel, store := st4 }

/-- All relations from a noun (optionally by type), each joined with its
target noun; join rows with a missing noun are dropped. -/
def relationsFrom (st : Store) (nounId : String) (type? : Option String := none) :
    List (Relation × Noun) :=
  (st.relations.filter (fun r =>
    r.from_id = nounId && match type? with | some t => r.type = t | none => true)).filterMap
    (fun r => (findNounById st r.to_id).map (fun n => (r, n)))

/-- All relations to a noun (optionally by type), joined with source nouns. -/
def relationsTo (st : Store) (nounId : String) (type? : Option String := none) :
    List (Relation × Noun) :=
  (st.relations.filter (fun r =>
    r.to_id = nounId && match type? with | some t => r.type = t | none => true)).filterMap
    (fun r => (findNounById st r.from_id).map (fun n => (r, n)))

/-- A query pattern (the optional from/relation/to constraints). -/
structure QueryPattern where
  fromLabel : Option String := none
  fromType : Option String := none
  relation : Option String := none
  toLabel : Option String := none
  toType : Option String := none

/-- One row of a query result. -/
structure QueryTriple where
  fromN : Noun
  relation : Relation
  toN : Noun

/-- Does a joined relation row satisfy the pattern constraints. -/
def queryMatches (pat : QueryPattern) (t : QueryTriple) : Bool :=
  (match pat.fromLabel with | some l => t.fromN.label = normLabel l | none => true) &&
  (match pat.fromType with | some ty => t.fromN.type = ty | none => true) &&
  (match pat.relation with | some ty => t.relation.type = ty | none => true) &&
  (match pat.toLabel with | some l => t.toN.label = normLabel l | none => true) &&
  (match pat.toType with | some ty => t.toN.type = ty | none => true)

/-- Pattern query: join both endpoints, filter, order by descending weight,
limit 100. -/
def query (st : Store) (pat : QueryPattern) : List QueryTriple :=
  ((List.insertionSort (fun a b : QueryTriple => b.relation.weight ≤ a.relation.weight)
    ((st.relations.filterMap (fun r =>
      match findNounById st r.from_id, findNounById st r.to_id with
      | some fn, some tn => some { fromN := fn, relation := r, toN := tn }
      | _, _ => none)).filter (queryMatches pat))).take 100)

/-- Histogram of relation types, first-seen order. -/
def bumpType : List (String × Nat) → String → List (String × Nat)
  | [], t => [(t, 1)]
  | (u, k) :: rest, t => if u = t then (u, k + 1) :: rest else (u, k) :: bumpType rest t

/-- Counts of nouns and relations and the per-type relation histogram. -/
structure GraphStats where
  nouns : Nat
  relations : Nat
  types : List (String × Nat)

/-- Store statistics. -/
def graphStats (st : Store) : GraphStats :=
  { nouns := st.nouns.length, relations := st.relations.length,
    types := st.relations.foldl (fun acc r => bumpType acc r.type) [] }

/-! ## The parse demon's analyzers (src/engine/demons/parse.ts) -/

/-- Alternatives of the greeting intent regex, each ending with the word
boundary of the source pattern. -/
def greetingAlts : List (List Tok) :=
  [[.lit "hi", .wb], [.lit "hello", .wb], [.lit "hey", .wb],
   [.lit "good", .ws, .lit "morning", .wb],
   [.lit "good", .ws, .lit "afternoon", .wb],
   [.lit "good", .ws, .lit "evening", .wb],
   [.lit "what", .opt aposC, .opt 's', .ws, .lit "up", .wb],
   [.lit "howdy", .wb], [.lit "yo", .wb]]

/-- Alternatives of the question intent regex. -/
def questionAlts : List (List Tok) :=
  ["what", "why", "how", "when", "where", "who", "which", "can", "could",
   "would", "is", "are", "do", "does", "did", "will"].map
    (fun w => [Tok.lit w, Tok.wb])

/-- Alternatives of the confusion intent regex (no trailing word boundary in
the source). -/
def confusionAlts : List (List Tok) :=
  [[.lit "i", .ws, .lit "don", .opt aposC, .lit "t", .ws, .lit "understand"],
   [.lit "i", .ws, .lit "don", .opt aposC, .lit "t", .ws, .lit "get"],
   [.lit "i", .ws, .lit "don", .opt aposC, .lit "t", .ws, .lit "know"],
   [.lit "confused"],
   [.lit "what", .ws, .lit "do", .ws, .lit "you", .ws, .lit "mean"],
   [.lit "huh"],
   [.lit "i", .opt aposC, .lit "m", .ws, .lit "lost"]]

/-- Alternatives of the correction intent regex (no trailing word boundary in
the source). -/
def correctionAlts : List (List Tok) :=
  [[.lit "no"],
   [.lit "that", .opt aposC, .opt 's', .ws, .lit "not"],
   [.lit "that", .opt aposC, .opt 's', .ws, .lit "wrong"],
   [.lit "actually"], [.lit "wait"], [.lit "incorrect"],
   [.lit "i", .ws, .lit "meant"]]

/-- Alternatives of the request intent regex. -/
def requestAlts : List (List Tok) :=
  ["explain", "tell", "show", "teach", "help", "give", "describe", "define",
   "solve", "calculate"].map (fun w => [Tok.lit w])

/-- Detect what kind of utterance this is: ordered first-match over the
intent patterns, then the more-than-two-tokens claim test. -/
def detectIntent (text : String) : String :=
  let lower := trimChars (lowerChars text.data)
  if startMatch greetingAlts lower then "greeting"
  else if startMatch questionAlts lower || endsWithL lower ['?'] then "question"
  else if startMatch confusionAlts lower then "confusion"
  else if startMatch correctionAlts lower then "correction"
  else if startMatch requestAlts lower then "request"
  else if (splitOnChar ' ' lower).length > 2 then "claim"
  else "unknown"

/-- One keyword as an unanchored search pattern. -/
def kw (s : String) : List Tok := [.lit s]

/-- The subject keyword table, in the bucket order of the source; each bucket
is one alternation searched anywhere in the lower-cased text. -/
def subjectTable : List (String × List (List Tok)) :=
  [("mathematics",
    [kw "math", kw "algebra", kw "calcul", kw "equation", kw "formula",
     kw "geometr", kw "trigonometr", kw "number", kw "fraction", kw "decimal",
     kw "percent", kw "variable", kw "polynomial", kw "function", kw "graph",
     kw "slope", kw "integral", kw "derivat", kw "matrix", kw "vector",
     kw "probability", kw "statistic"]),
   ("physics",
    [kw "physics", kw "force", kw "motion", kw "energy", kw "velocity",
     kw "accelerat", kw "gravity", kw "mass", kw "momentum", kw "wave",
     kw "electric", kw "magnet", kw "quantum", kw "relativity",
     kw "thermodynamic", kw "pressure", kw "friction"]),
   ("chemistry",
    [kw "chemistry", kw "chemical", kw "atom", kw "molecule", kw "element",
     kw "compound", kw "reaction", kw "bond", kw "ion", kw "acid", kw "base",
     kw "solution", [Tok.lit "periodic", Tok.ws, Tok.lit "table"],
     kw "electron", kw "proton", kw "neutron", kw "molar"]),
   ("biology",
    [kw "biology", kw "cell", kw "organism", kw "evolution", kw "dna",
     kw "gene", kw "protein", kw "ecosystem", kw "species",
     kw "photosynthesis", kw "mitosis", kw "meiosis", kw "organ",
     kw "tissue", kw "bacteria", kw "virus"]),
   ("history",
    [kw "history", kw "war", kw "revolution", kw "empire", kw "dynasty",
     kw "century", kw "ancient", kw "medieval", kw "colonial",
     kw "civilization", kw "democracy", kw "monarch", kw "president",
     kw "treaty", kw "battle"]),
   ("language",
    [kw "grammar", kw "verb", kw "noun", kw "adjective", kw "sentence",
     kw "paragraph", kw "essay", kw "writing", kw "read", kw "literature",
     kw "poetry", kw "vocabulary", kw "synonym", kw "antonym", kw "metaphor",
     kw "simile"]),
   ("computer_science",
    [kw "code", kw "program", kw "algorithm",
     [Tok.lit "data", Tok.wsStar, Tok.lit "structure"], kw "software",
     kw "hardware", kw "computer", kw "function", kw "variable", kw "loop",
     kw "array", kw "class", kw "object", kw "database", kw "web", kw "api",
     kw "python", kw "javascript", kw "html", kw "css"]),
   ("geography",
    [kw "geography", kw "continent", kw "country", kw "ocean", kw "river",
     kw "mountain", kw "climate", kw "population", kw "capital", kw "border",
     kw "latitude", kw "longitude", kw "map", kw "terrain", kw "region"]),
   ("economics",
    [kw "economics", kw "market", kw "supply", kw "demand", kw "price",
     kw "inflation", kw "gdp", kw "trade", kw "currency", kw "bank",
     kw "invest", kw "profit", kw "cost", kw "revenue", kw "tax",
     kw "budget"])]

/-- Detect the subject domain: first bucket with a keyword occurring in the
lower-cased (untrimmed) text, else general. -/
def detectSubject (text : String) : String :=
  go subjectTable (lowerChars text.data)
where go : List (String × List (List Tok)) → List Char → String
  | [], _ => "general"
  | (subj, pats) :: rest, l => if searchMatch pats l then subj else go rest l

/-- Strip one trailing character from the given terminator class, if present
(the optional terminator class before the end anchor of the focus regexes). -/
def stripOneTrailing (terms : List Char) (l : List Char) : List Char :=
  match l.reverse with
  | c :: rest => if terms.contains c then rest.reverse else l
  | [] => l

/-- The lazy capture-to-end group of the focus regexes: the group is the rest
of the input with one trailing terminator stripped; when stripping would
leave the group empty the terminator itself is the (minimal, non-empty)
group.  A group may not contain a newline (the dot of the source regexes);
the modelled engine then fails at this position. -/
def captureToEnd (terms : List Char) (r : List Char) : Option (List Char) :=
  if r.isEmpty then none
  else
    let stripped := stripOneTrailing terms r
    let g := if stripped.isEmpty then r else stripped
    if g.contains '\n' then none else some g

/-- Strip a trailing whitespace-run-plus-word suffix, if present. -/
def stripSuffixWsWord (w : List Char) (l : List Char) : Option (List Char) :=
  let rev := l.reverse
  if w.reverse.isPrefixOf rev then
    let rest := (rev.drop w.length)
    let rest2 := rest.dropWhile (fun c => isWs c)
    if rest2.length < rest.length then some rest2.reverse else none
  else none

/-- The capture of the how-does focus pattern: strip one optional trailing
question mark, then one optional work/happen/function suffix. -/
def captureHowDoes (r : List Char) : Option (List Char) :=
  if r.isEmpty then none
  else
    let s1 := stripOneTrailing ['?'] r
    let s1' := if s1.isEmpty then r else s1
    let s2 := (([("work" : String), "happen", "function"].findSome?
      (fun w => stripSuffixWsWord w.data s1'))).getD s1'
    let g := if s2.isEmpty then s1' else s2
    if g.contains '\n' then none else some g

/-- Find the leftmost position where a focus-pattern prefix matches and its
capture succeeds; on a capture failure the scan moves one character forward,
as the regex engine does. -/
def findFocus (alts : List (List Tok)) (cap : List Char → Option (List Char)) :
    Option Char → List Char → Option (List Char)
  | prev, l =>
    match alts.findSome? (fun toks => matchToks toks prev l) with
    | some (_, rest) =>
      match cap rest with
      | some g => some g
      | none =>
        match l with
        | [] => none
        | c :: r => findFocus alts cap (some c) r
    | none =>
      match l with
      | [] => none
      | c :: r => findFocus alts cap (some c) r

/-- Prefix alternatives of the what-is focus pattern. -/
def whatIsAlts : List (List Tok) :=
  [[.lit "what", .ws, .lit "is", .ws], [.lit "what", .ws, .lit "are", .ws]]

/-- Prefix alternatives of the how-does focus pattern. -/
def howDoesAlts : List (List Tok) :=
  ["does", "do", "did", "can", "could", "would"].map
    (fun w => [Tok.lit "how", Tok.ws, Tok.lit w, Tok.ws])

/-- Prefix alternatives of the why focus pattern. -/
def whyAlts : List (List Tok) :=
  ["does", "do", "did", "is", "are", "was", "were"].map
    (fun w => [Tok.lit "why", Tok.ws, Tok.lit w, Tok.ws])

/-- Prefix alternatives of the explain focus pattern. -/
def explainAlts : List (List Tok) :=
  [[.lit "explain", .ws], [.lit "describe", .ws], [.lit "define", .ws],
   [.lit "tell", .ws, .lit "me", .ws, .lit "about", .ws]]

/-- Extract what specific question is being asked: the four focus patterns in
order, falling back to the whole (original-case) trimmed input. -/
def extractQuestionFocus (text : String) : String :=
  let lower := trimChars (lowerChars text.data)
  match findFocus whatIsAlts (captureToEnd ['?']) none lower with
  | some g => String.mk (trimChars g)
  | none =>
  match findFocus howDoesAlts captureHowDoes none lower with
  | some g => String.mk (trimChars g)
  | none =>
  match findFocus whyAlts (captureToEnd ['?']) none lower with
  | some g => String.mk (trimChars g)
  | none =>
  match findFocus explainAlts (captureToEnd ['?', '.']) none lower with
  | some g => String.mk (trimChars g)
  | none => trimS text

/-- The stop-word set of extractNounPhrases. -/
def stopWords : List String :=
  ["a", "an", "the", "is", "are", "was", "were", "be", "been", "being",
   "have", "has", "had", "do", "does", "did", "will", "would", "could",
   "should", "may", "might", "shall", "can", "need", "dare", "ought",
   "used", "to", "of", "in", "for", "on", "with", "at", "by", "from",
   "as", "into", "through", "during", "before", "after", "above", "below",
   "between", "out", "off", "over", "under", "again", "further", "then",
   "once", "here", "there", "when", "where", "why", "how", "all", "each",
   "every", "both", "few", "more", "most", "other", "some", "such", "no",
   "nor", "not", "only", "own", "same", "so", "than", "too", "very",
   "just", "because", "but", "and", "or", "if", "while", "that", "this",
   "what", "which", "who", "whom", "these", "those", "i", "me", "my",
   "we", "our", "you", "your", "he", "him", "his", "she", "her", "it",
   "its", "they", "them", "their", "about", "up", wApos "it" "s",
   wApos "don" "t", wApos "doesn" "t", wApos "didn" "t", wApos "won" "t",
   wApos "wouldn" "t", wApos "can" "t", "cannot", wApos "isn" "t",
   wApos "aren" "t", wApos "wasn" "t", wApos "weren" "t"]

/-- The punctuation class replaced by spaces before tokenization. -/
def punctChars : List Char :=
  ['?', '!', '.', ',', ';', ':', aposC, '"', '(', ')', '[', ']',
   Char.ofNat 123, Char.ofNat 125]

/-- Lower-case, replace punctuation by spaces, collapse whitespace, trim. -/
def cleanedChars (text : String) : List Char :=
  trimChars (collapseWs ((lowerChars text.data).map
    (fun c => if punctChars.contains c then ' ' else c)))

/-- Join words with single spaces (the join of the source). -/
def joinSpace : List String → String
  | [] => ""
  | [w] => w
  | w :: rest => w ++ " " ++ joinSpace rest

/-- Group consecutive non-stop-word tokens into phrases. -/
def groupPhrases (toks : List String) : List String :=
  go [] toks
where go : List String → List String → List String
  | current, [] => if current.isEmpty then [] else [joinSpace current.reverse]
  | current, w :: rest =>
    if stopWords.contains w || w.length ≤ 1 then
      if current.isEmpty then go [] rest else joinSpace current.reverse :: go [] rest
    else go (w :: current) rest

/-- Deduplicate preserving first occurrences (the Set spread of the source). -/
def dedupFirst (l : List String) : List String :=
  go [] l
where go : List String → List String → List String
  | _, [] => []
  | seen, w :: rest =>
    if seen.contains w then go seen rest else w :: go (w :: seen) rest

/-- Simple extraction of noun-like phrases: meaningful words, consecutive
groups as phrases, remaining atoms, deduplicated in insertion order. -/
def extractNounPhrases (text : String) : List String :=
  let cleaned := cleanedChars text
  let toks : List String := (splitOnChar ' ' cleaned).map String.mk
  let words := toks.filter (fun w => w.length > 1 && !(stopWords.contains w))
  let phrases := groupPhrases toks
  let atomic := words.filter (fun w => !(phrases.any (fun p => p = w)))
  dedupFirst (phrases ++ atomic)

/-! ## The learn demon's analyzers (src/engine/demons/learn.ts) -/

/-- ASCII digit test. -/
def isDigitC (c : Char) : Bool := '0' ≤ c && c ≤ '9'

/-- The unit suffixes of the numeric-value label regex (tested against the
lower-cased label, so the upper-case litre units never match, exactly as in
the source). -/
def valueUnits : List String :=
  ["%", "°", "m/s", "kg", "cm", "mm", "km", "g", "mg", "L", "mL"]

/-- Does the rest after the digits complete the value regex. -/
def unitOk (r : List Char) : Bool :=
  r.isEmpty || valueUnits.any (fun u => u.data = r)

/-- The numeric-value label regex: digits, an optional decimal part, an
optional unit, anchored at both ends. -/
def isValueLabel (l : List Char) : Bool :=
  let d1 := l.takeWhile isDigitC
  if d1.isEmpty then false
  else
    let r1 := l.drop d1.length
    match r1 with
    | '.' :: t =>
      let d2 := t.takeWhile isDigitC
      if d2.isEmpty then unitOk r1 else unitOk (t.drop d2.length)
    | _ => unitOk r1

/-- Determine a noun type from its label (the subject argument is unused in
the source body as well). -/
def inferNounType (label : String) (_subject : String) : String :=
  let lower := lowerChars label.data
  if isValueLabel lower then "value"
  else if (["true", "false", "yes", "no"] : List String).any (fun w => w.data = lower) then "value"
  else if (["ing", "tion", "sis", "ment"] : List String).any
      (fun sfx => endsWithL lower sfx.data) then "process"
  else if (["ness", "ity", "ful", "ous", "ive", "able"] : List String).any
      (fun sfx => endsWithL lower sfx.data) then "property"
  else if (["mathematics", "physics", "chemistry", "biology", "history",
            "language", "computer_science", "geography", "economics"] : List String).any
      (fun s => s.data = lower) then "context"
  else "concept"

/-- A relation extracted from raw input by the learn demon. -/
structure ImpliedRel where
  from' : String
  type : String
  to' : String
deriving DecidableEq

/-- The terminating capture group of the implied-relation patterns: a
word-starting run of word-or-space characters that must be followed by a
period, a comma or the end of the input; returns the group and the input
after the consumed terminator. -/
def g2Capture (l : List Char) : Option (List Char × List Char) :=
  match l with
  | c :: _ =>
    if isWordChar c then
      let run := l.takeWhile isWordOrSpace
      let after := l.drop run.length
      match after with
      | '.' :: t => some (run, t)
      | ',' :: t => some (run, t)
      | [] => some (run, [])
      | _ => none
    else none
  | [] => none

/-- Grow the lazy first capture group one character at a time (shortest
first), trying the connector alternation followed by the second capture at
each length.  The accumulator holds the group so far, reversed. -/
def tryG1From (conn : List (List Tok)) :
    List Char → List Char → Option (List Char × List Char × List Char)
  | g1rev, rest =>
    match conn.findSome? (fun toks => matchToks toks none rest) with
    | some (_, rest2) =>
      match g2Capture rest2 with
      | some (g2, after) => some (g1rev.reverse, g2, after)
      | none =>
        match rest with
        | c :: rest' =>
          if isWordOrSpace c then tryG1From conn (c :: g1rev) rest' else none
        | [] => none
    | none =>
      match rest with
      | c :: rest' =>
        if isWordOrSpace c then tryG1From conn (c :: g1rev) rest' else none
      | [] => none

/-- The global exec loop of one implied-relation pattern: find the leftmost
match (the first capture must start on a word character), emit its two
groups, and continue after the consumed match. -/
def scanRelsGo (conn : List (List Tok)) : Nat → List Char → List (List Char × List Char)
  | 0, _ => []
  | _ + 1, [] => []
  | fuel + 1, c :: rest =>
    if isWordChar c then
      match tryG1From conn [c] rest with
      | some (g1, g2, after) => (g1, g2) :: scanRelsGo conn fuel after
      | none => scanRelsGo conn fuel rest
    else scanRelsGo conn fuel rest

/-- All matches of one implied-relation pattern over the input. -/
def scanRels (conn : List (List Tok)) (l : List Char) : List (List Char × List Char) :=
  scanRelsGo conn (l.length + 1) l

/-- Connector of the is-a pattern. -/
def isAConn : List (List Tok) :=
  [[.ws, .lit "is", .ws, .lit "a", .ws], [.ws, .lit "is", .ws, .lit "an", .ws]]

/-- Connector of the causes pattern. -/
def causesConn : List (List Tok) :=
  [[.ws, .lit "causes", .ws],
   [.ws, .lit "lead", .opt 's', .ws, .lit "to", .ws],
   [.ws, .lit "result", .opt 's', .ws, .lit "in", .ws]]

/-- Connector of the has pattern. -/
def hasConn : List (List Tok) :=
  [[.ws, .lit "has", .ws], [.ws, .lit "have", .ws],
   [.ws, .lit "contain", .opt 's', .ws]]

/-- Connector of the part-of pattern. -/
def partConn : List (List Tok) :=
  [[.ws, .lit "is", .ws, .lit "part", .ws, .lit "of", .ws],
   [.ws, .lit "is", .ws, .lit "a", .ws, .lit "component", .ws, .lit "of", .ws]]

/-- Connector of the requires pattern. -/
def reqConn : List (List Tok) :=
  [[.ws, .lit "require", .opt 's', .ws], [.ws, .lit "need", .opt 's', .ws]]

/-- Connector of the equals pattern. -/
def eqConn : List (List Tok) :=
  [[.ws, .lit "equal", .opt 's', .ws],
   [.ws, .lit "is", .ws, .lit "equal", .ws, .lit "to", .ws],
   [.ws, .lit "=", .ws]]

/-- Connector of the used-for pattern. -/
def usedConn : List (List Tok) :=
  [[.ws, .lit "is", .ws, .lit "used", .ws, .lit "for", .ws],
   [.ws, .lit "is", .ws, .lit "used", .ws, .lit "to", .ws]]

/-- Extract plausible relations from what the student said: the seven
pattern families in source order, both groups trimmed. -/
def extractImpliedRelations (text : String) : List ImpliedRel :=
  let lower := lowerChars text.data
  let mk := fun (ty : String) (pr : List Char × List Char) =>
    ({ from' := String.mk (trimChars pr.1), type := ty,
       to' := String.mk (trimChars pr.2) } : ImpliedRel)
  (scanRels isAConn lower).map (mk "is_a") ++
  (scanRels causesConn lower).map (mk "causes") ++
  (scanRels hasConn lower).map (mk "has") ++
  (scanRels partConn lower).map (mk "part_of") ++
  (scanRels reqConn lower).map (mk "requires") ++
  (scanRels eqConn lower).map (mk "equals") ++
  (scanRels usedConn lower).map (mk "used_for")

/-! ## Demon framework (src/engine/core/types.ts, src/engine/demons/index.ts) -/

/-- Actions a demon can request from the hypervisor. -/
inductive DemonAction where
  | respond (text : String)
  | ask (question : String)
  | store (noun : Json) (relations : List Json)
  | query (pattern : QueryPattern)
  | log (message : String)

/-- The mutation plan a demon returns. -/
structure DemonOutput where
  write : List SlotSpec
  evict : List String
  focus : List String
  actions : List DemonAction
  chain : List String

/-- An empty demon output. -/
def emptyOutput : DemonOutput :=
  { write := [], evict := [], focus := [], actions := [], chain := [] }

/-- Demon trigger kinds. -/
inductive DemonTrigger where
  | always
  | tag_present (tag : String)
  | tag_absent (tag : String)
  | chain (from' : String)
  | new_input
  | tick_interval (every : Nat)

/-- Input to a demon: the memory view, the subject context the scheduler
passes, and the model of the global Math.random draw. -/
structure DemonInput where
  memory : WorkingMemory
  context : Option Json
  randIdx : Nat

/-- A demon.  The body returns Except so that a demon that throws (caught by
the scheduler) is representable; the graph store is threaded explicitly
because the source demons access the store as a module-global. -/
structure Demon where
  id : String
  name : String
  description : String
  triggers : List DemonTrigger
  run : Store → DemonInput → Except String (DemonOutput × Store)

/-- Lookup a demon by id. -/
def getDemon (reg : List Demon) (id : String) : Option Demon :=
  reg.find? (fun d => d.id = id)

/-- Trigger conditions the hypervisor can evaluate. -/
inductive TriggerCond where
  | always
  | new_input
  | tag_present (tag : String)
  | tag_absent (tag : String)
  | chain (from' : String)
  | tick_interval (tick : Nat)

/-- Does a condition activate a trigger. -/
def triggerMatches : TriggerCond → DemonTrigger → Bool
  | .always, .always => true
  | .new_input, .new_input => true
  | .tag_present t, .tag_present u => t = u
  | .tag_absent t, .tag_absent u => t = u
  | .chain f, .chain g => f = g
  | .tick_interval k, .tick_interval e => k ≠ 0 && k % e = 0
  | _, _ => false

/-- All demons triggered by a condition, one entry per matching trigger as in
the source. -/
def getTriggeredDemons (reg : List Demon) (cond : TriggerCond) : List Demon :=
  (reg.map (fun d =>
    (d.triggers.filter (fun t => triggerMatches cond t)).map (fun _ => d))).flatten

/-- Join strings with a comma and a space (the joins in log messages). -/
def joinComma : List String → String
  | [] => ""
  | [w] => w
  | w :: rest => w ++ ", " ++ joinComma rest

/-! ## The parse demon (src/engine/demons/parse.ts) -/

/-- Body of the parse demon. -/
def parseRun (input : DemonInput) : DemonOutput :=
  match latestByTag input.memory "raw_input" with
  | none => emptyOutput
  | some rawSlot =>
    let text := jStr rawSlot.content
    let intent := detectIntent text
    let subject := detectSubject text
    let nounPhrases := extractNounPhrases text
    let questionFocus : Option String :=
      if intent = "question" ∨ intent = "request"
      then some (extractQuestionFocus text) else none
    let slotsToWrite : List SlotSpec :=
      [{ content := .str intent, tag := "intent", confidence := q08,
         source_demon := "parse", ttl := 0 },
       { content := .str subject, tag := "subject",
         confidence := if subject = "general" then q03 else q07,
         source_demon := "parse", ttl := 0 }] ++
      nounPhrases.map (fun phrase =>
        ({ content := .str phrase, tag := "noun_phrase", confidence := q06,
           source_demon := "parse", ttl := 10 } : SlotSpec)) ++
      (match questionFocus with
       | some qf => [({ content := .str qf, tag := "question_focus", confidence := q07,
                        source_demon := "parse", ttl := 0 } : SlotSpec)]
       | none => [])
    let chain : List String :=
      if intent = "question" ∨ intent = "request" then ["relate", "infer", "question"]
      else if intent = "claim" then ["relate", "infer", "decompose"]
      else if intent = "confusion" then ["decompose", "analogize", "question"]
      else if intent = "correction" then ["relate", "infer"]
      else if intent = "greeting" then ["question"]
      else ["relate", "question"]
    { write := slotsToWrite, evict := [], focus := [],
      actions := [.log ("Parsed: intent=" ++ intent ++ ", subject=" ++ subject ++
        ", nouns=[" ++ joinComma nounPhrases ++ "]")],
      chain := chain }

/-- The parse demon. -/
def parseDemon : Demon :=
  { id := "parse", name := "Parse",
    description := "Decomposes raw user input into structured concepts, intent, subject, and noun phrases.",
    triggers := [.new_input],
    run := fun st input => .ok (parseRun input, st) }

/-! ## The relate demon (src/engine/demons/relate.ts) -/

/-- A relation a demon keeps in working memory: the content of relation,
context_fact and inferred_relation slots. -/
structure RelContent where
  from' : String
  type : String
  to' : String
  weight : ℚ
deriving DecidableEq

/-- Json encoding of a RelContent, property order of the source literals. -/
def relToJson (r : RelContent) : Json :=
  .obj [("from", Json.str r.from'), ("type", Json.str r.type),
        ("to", Json.str r.to'), ("weight", Json.num r.weight)]

/-- Decode a slot content as a RelContent (the unchecked cast of the
source). -/
def jRel (j : Json) : RelContent :=
  { from' := jGetStr j "from", type := jGetStr j "type",
    to' := jGetStr j "to", weight := jGetNum j "weight" }

/-- Resolution state of relate Phase 1. -/
structure ResolveState where
  found : List (String × Noun)
  missing : List String
  fuzzyWrites : List SlotSpec

/-- Phase 1 of relate: resolve each noun phrase by exact lookup, then fuzzy
search (top candidate), recording fuzzy matches and missing labels. -/
def resolveNouns (st : Store) : List String → ResolveState → ResolveState
  | [], acc => acc
  | label :: rest, acc =>
    match findNoun st label with
    | some n => resolveNouns st rest { acc with found := acc.found ++ [(label, n)] }
    | none =>
      match searchNouns st label 3 with
      | [] => resolveNouns st rest { acc with missing := acc.missing ++ [label] }
      | c0 :: cs =>
        let fuzzy :=
          if ¬ c0.label = normLabel label then
            [({ content := Json.obj
                  [("original", Json.str label), ("matched", Json.str c0.label),
                   ("alternatives", Json.arr ((c0 :: cs).map (fun c => Json.str c.label)))],
                tag := "fuzzy_match", confidence := q05, source_demon := "relate",
                ttl := 5 } : SlotSpec)]
          else []
        resolveNouns st rest
          { acc with found := acc.found ++ [(label, c0)],
                     fuzzyWrites := acc.fuzzyWrites ++ fuzzy }

/-- Phase 2 of relate for one resolved noun: the relations to other resolved
nouns, and its direct is_a ancestors as hierarchy slot writes. -/
def relateOne (st : Store) (found : List (String × Noun)) (labelA : String) (nounA : Noun) :
    List RelContent × List SlotSpec :=
  let rels := relationsFrom st nounA.id
  let relsFound := rels.foldl (fun acc rn =>
    acc ++ (found.filterMap (fun lb =>
      if rn.1.to_id = lb.2.id then
        some ({ from' := labelA, type := rn.1.type, to' := lb.1,
                weight := rn.1.weight } : RelContent)
      else none))) []
  let hierarchy := (relationsFrom st nounA.id (some "is_a")).map (fun rn =>
    ({ content := Json.obj [("noun", Json.str labelA), ("is_a", Json.str rn.2.label)],
       tag := "hierarchy", confidence := rn.1.weight, source_demon := "relate",
       ttl := 8 } : SlotSpec))
  (relsFound, hierarchy)

/-- Body of the relate demon. -/
def relateRun (st : Store) (input : DemonInput) : DemonOutput :=
  let nounSlots := findByTag input.memory "noun_phrase"
  let nouns := nounSlots.map (fun s => jStr s.content)
  if nouns.isEmpty then emptyOutput
  else
    let res := resolveNouns st nouns { found := [], missing := [], fuzzyWrites := [] }
    let phase2 := res.found.map (fun lb => relateOne st res.found lb.1 lb.2)
    let relationsFound := (phase2.map Prod.fst).flatten
    let hierarchyWrites := (phase2.map Prod.snd).flatten
    let relationWrites := relationsFound.map (fun rel =>
      ({ content := relToJson rel, tag := "relation", confidence := rel.weight,
         source_demon := "relate", ttl := 8 } : SlotSpec))
    let unknownWrites :=
      if res.missing.length > 0 then
        [({ content := Json.arr (res.missing.map Json.str), tag := "unknown_concepts",
            confidence := q09, source_demon := "relate", ttl := 5 } : SlotSpec)]
      else []
    let unknownActions :=
      if res.missing.length > 0 then
        [DemonAction.log ("Unknown concepts: [" ++ joinComma res.missing ++ "]")]
      else []
    let contextWrites :=
      match latestByTag input.memory "subject" with
      | some subjectSlot =>
        if ¬ jStr subjectSlot.content = "general" then
          match findNoun st (jStr subjectSlot.content) with
          | some subjectNoun =>
            ((relationsFrom st subjectNoun.id).take 10).map (fun rn =>
              ({ content := relToJson
                   { from' := subjectNoun.label, type := rn.1.type,
                     to' := rn.2.label, weight := rn.1.weight },
                 tag := "context_fact", confidence := rn.1.weight * q07,
                 source_demon := "relate", ttl := 6 } : SlotSpec))
          | none => []
        else []
      | none => []
    let chain :=
      (if relationsFound.length > 0 then ["infer"] else []) ++
      (if res.missing.length > 0 then ["question"] else []) ++
      (if res.found.length > 0 ∧ relationsFound.length = 0 then ["analogize"] else [])
    { write := res.fuzzyWrites ++ hierarchyWrites ++ relationWrites ++
        unknownWrites ++ contextWrites,
      evict := [], focus := [],
      actions := unknownActions ++
        [.log ("Relate: found=" ++ natStr res.found.length ++ ", missing=" ++
          natStr res.missing.length ++ ", relations=" ++ natStr relationsFound.length)],
      chain := chain }

/-- The relate demon. -/
def relateDemon : Demon :=
  { id := "relate", name := "Relate",
    description := "Queries knowledge graph for relations between concepts in working memory.",
    triggers := [.chain "parse", .tag_present "noun_phrase"],
    run := fun st input => .ok (relateRun st input, st) }

/-! ## The infer demon (src/engine/demons/infer.ts) -/

/-- The duplicate-suppression key used by the inference rules. -/
def transKey (f t to2 : String) : String := f ++ "|" ++ t ++ "|" ++ to2

/-- The key of an existing relation. -/
def relKey (r : RelContent) : String := transKey r.from' r.type r.to'

/-- Inner loop of the transitive rule: for a fixed first edge, scan all
edges for a continuation, emitting each new composite and recording its key.
Returns the emitted edges in order together with the grown key set. -/
def innerTrans (r1 : RelContent) :
    List RelContent → List String → List RelContent × List String
  | [], existing => ([], existing)
  | r2 :: rest, existing =>
    if r2.type = r1.type ∧ r2.from' = r1.to' ∧ ¬ r2.to' = r1.from' then
      let key := transKey r1.from' r1.type r2.to'
      if existing.contains key then innerTrans r1 rest existing
      else
        let e : RelContent :=
          { from' := r1.from', type := r1.type, to' := r2.to',
            weight := min r1.weight r2.weight * q09 }
        let r := innerTrans r1 rest (key :: existing)
        (e :: r.1, r.2)
    else innerTrans r1 rest existing

/-- Outer loop of the transitive rule over the first edge. -/
def outerTrans (tset : List String) (all : List RelContent) :
    List RelContent → List String → List RelContent
  | [], _ => []
  | r1 :: rest, existing =>
    if tset.contains r1.type then
      let r := innerTrans r1 all existing
      r.1 ++ outerTrans tset all rest r.2
    else outerTrans tset all rest existing

/-- Find transitive relations: if A to B and B to C with the same transitive
type, infer A to C at weight min times 0.9, suppressing keys already present
or already emitted. -/
def inferTransitive (relations : List RelContent) (transitiveTypes : List String) :
    List RelContent :=
  outerTrans transitiveTypes relations relations (relations.map relKey)

/-- Inner loop of the inheritance rule for one is_a edge. -/
def innerInherit (isa : RelContent) :
    List RelContent → List String → List RelContent × List String
  | [], existing => ([], existing)
  | prop :: rest, existing =>
    if prop.from' = isa.to' then
      let key := transKey isa.from' prop.type prop.to'
      if existing.contains key then innerInherit isa rest existing
      else
        let e : RelContent :=
          { from' := isa.from', type := prop.type, to' := prop.to',
            weight := min isa.weight prop.weight * q085 }
        let r := innerInherit isa rest (key :: existing)
        (e :: r.1, r.2)
    else innerInherit isa rest existing

/-- Outer loop of the inheritance rule. -/
def outerInherit (has : List RelContent) :
    List RelContent → List String → List RelContent
  | [], _ => []
  | isa :: rest, existing =>
    let r := innerInherit isa has existing
    r.1 ++ outerInherit has rest r.2

/-- Inherit properties through the is_a hierarchy: if A is_a B and B has or
requires P, infer the same edge from A at weight min times 0.85. -/
def inferInheritance (relations : List RelContent) : List RelContent :=
  let isAs := relations.filter (fun r => r.type = "is_a")
  let has := relations.filter (fun r => r.type = "has" ∨ r.type = "requires")
  outerInherit has isAs (relations.map relKey)

/-- A detected contradiction. -/
structure Contradiction where
  concept : String
  claim1 : RelContent
  claim2 : RelContent
  reason : String

/-- The reason text for two conflicting equals claims. -/
def equalsReason (a b c : String) : String :=
  "\"" ++ a ++ "\" can" ++ aposS ++ "t equal both \"" ++ b ++ "\" and \"" ++ c ++ "\""

/-- Conflicting-equals detection: every unordered pair of equals edges with
the same source and different targets, in the pair order of the source's
double loop. -/
def equalsContradictions : List RelContent → List Contradiction
  | [] => []
  | e :: rest =>
    (rest.filterMap (fun f =>
      if e.from' = f.from' ∧ ¬ e.to' = f.to' then
        some { concept := e.from', claim1 := e, claim2 := f,
               reason := equalsReason e.from' e.to' f.to' }
      else none)) ++ equalsContradictions rest

/-- The opposes-plus-equals detection of the source. -/
def opposesContradictions (equalsRels opposes : List RelContent) : List Contradiction :=
  (opposes.map (fun opp =>
    equalsRels.filterMap (fun eq =>
      if eq.to' = opp.from' ∨ eq.to' = opp.to' then
        let other := if eq.to' = opp.from' then opp.to' else opp.from'
        match equalsRels.find? (fun e2 => e2.from' = eq.from' ∧ e2.to' = other) with
        | some otherEq =>
          some { concept := eq.from', claim1 := eq, claim2 := otherEq,
                 reason := equalsReason eq.from' eq.to' other ++
                   " because they oppose each other" }
        | none => none
      else none))).flatten

/-- Detect contradictions: conflicting equals, then equals through an opposes
edge. -/
def detectContradictions (relations : List RelContent) : List Contradiction :=
  let equalsRels := relations.filter (fun r => r.type = "equals")
  let opposes := relations.filter (fun r => r.type = "opposes")
  equalsContradictions equalsRels ++ opposesContradictions equalsRels opposes

/-- A hierarchy slot content. -/
structure Hierarchy where
  noun : String
  is_a : String

/-- A claim assessment. -/
structure ClaimAssessment where
  supported : List RelContent
  unsupported : List String
  confidence : ℚ

/-- Build a confidence assessment of the student's claim. -/
def assessClaim (relations : List RelContent) (hierarchies : List Hierarchy) :
    ClaimAssessment :=
  let supported := relations.filter (fun r => r.weight > q05)
  let allConcepts :=
    dedupFirst (relations.map (fun r => r.from') ++ relations.map (fun r => r.to'))
  let knownConcepts :=
    hierarchies.map (fun h => h.noun) ++
      ((relations.filter (fun r => r.weight > q03)).map
        (fun r => [r.from', r.to'])).flatten
  let unsupported := allConcepts.filter (fun c => ¬ knownConcepts.contains c)
  let confidence : ℚ :=
    if allConcepts.length > 0 then
      (supported.length : ℚ) / (max 1 allConcepts.length : ℚ)
    else 0
  { supported := supported, unsupported := unsupported, confidence := confidence }

/-- Json encoding of an inferred relation slot content. -/
def inferredJson (r : RelContent) (rule : String) : Json :=
  .obj [("from", Json.str r.from'), ("type", Json.str r.type),
        ("to", Json.str r.to'), ("weight", Json.num r.weight),
        ("inferred", Json.bool true), ("rule", Json.str rule)]

/-- Json encoding of a contradiction slot content. -/
def contradictionJson (c : Contradiction) : Json :=
  .obj [("concept", Json.str c.concept), ("claim1", relToJson c.claim1),
        ("claim2", relToJson c.claim2), ("reason", Json.str c.reason)]

/-- Json encoding of a claim assessment slot content. -/
def assessmentJson (a : ClaimAssessment) : Json :=
  .obj [("supported", Json.arr (a.supported.map relToJson)),
        ("unsupported", Json.arr (a.unsupported.map Json.str)),
        ("confidence", Json.num a.confidence)]

/-- The transitive type set of the infer demon. -/
def transitiveTypeSet : List String :=
  ["is_a", "causes", "requires", "part_of", "precedes"]

/-- Body of the infer demon. -/
def inferRun (input : DemonInput) : DemonOutput :=
  let relSlots := findByTag input.memory "relation"
  let contextSlots := findByTag input.memory "context_fact"
  let hierarchySlots := findByTag input.memory "hierarchy"
  let relations : List RelContent :=
    relSlots.map (fun s => jRel s.content) ++ contextSlots.map (fun s => jRel s.content)
  let hierarchies : List Hierarchy := hierarchySlots.map (fun s =>
    { noun := jGetStr s.content "noun", is_a := jGetStr s.content "is_a" })
  if relations.isEmpty then { emptyOutput with chain := ["question"] }
  else
    let transitive := inferTransitive relations transitiveTypeSet
    let inherited := inferInheritance relations
    let contradictions := detectContradictions relations
    let transWrites := transitive.map (fun rel =>
      ({ content := inferredJson rel "transitivity", tag := "inferred_relation",
         confidence := rel.weight, source_demon := "infer", ttl := 6 } : SlotSpec))
    let inheritWrites := inherited.map (fun rel =>
      ({ content := inferredJson rel "inheritance", tag := "inferred_relation",
         confidence := rel.weight, source_demon := "infer", ttl := 6 } : SlotSpec))
    let contraWrites := contradictions.map (fun c =>
      ({ content := contradictionJson c, tag := "contradiction",
         confidence := q09, source_demon := "infer", ttl := 0 } : SlotSpec))
    let assessWrites :=
      match latestByTag input.memory "intent" with
      | some intentSlot =>
        if jStr intentSlot.content = "claim" then
          let assessment := assessClaim relations hierarchies
          [({ content := assessmentJson assessment, tag := "claim_assessment",
              confidence := assessment.confidence, source_demon := "infer",
              ttl := 0 } : SlotSpec)]
        else []
      | none => []
    let chain :=
      (if contradictions.length > 0 then ["question"] else []) ++
      (if transitive.length + inherited.length > 0 then ["decompose"] else []) ++
      ["question"]
    { write := transWrites ++ inheritWrites ++ contraWrites ++ assessWrites,
      evict := [], focus := [],
      actions := [.log ("Infer: transitive=" ++ natStr transitive.length ++
        ", inherited=" ++ natStr inherited.length ++
        ", contradictions=" ++ natStr contradictions.length)],
      chain := chain }

/-- The infer demon. -/
def inferDemon : Demon :=
  { id := "infer", name := "Infer",
    description := "Derives new knowledge from existing relations via logical inference rules.",
    triggers := [.chain "relate", .tag_present "relation"],
    run := fun st input => .ok (inferRun input, st) }

/-! ## The decompose demon (src/engine/demons/decompose.ts) -/

/-- Graph-based decomposition of a concept. -/
structure GraphDecomp where
  parts : List (String × String)
  prerequisites : List String
  examples : List String

/-- Break a concept into its graph-based components. -/
def decomposeFromGraph (st : Store) (conceptLabel : String) : GraphDecomp :=
  match findNoun st conceptLabel with
  | none => { parts := [], prerequisites := [], examples := [] }
  | some noun =>
    let rels := relationsFrom st noun.id
    let base := rels.foldl (fun (acc : GraphDecomp) rn =>
      if rn.1.type = "part_of" ∨ rn.1.type = "has" ∨ rn.1.type = "contains" then
        { acc with parts := acc.parts ++ [(rn.2.label, rn.1.type)] }
      else if rn.1.type = "requires" then
        { acc with prerequisites := acc.prerequisites ++ [rn.2.label] }
      else if rn.1.type = "example_of" then
        { acc with examples := acc.examples ++ [rn.2.label] }
      else acc) { parts := [], prerequisites := [], examples := [] }
    let patPart : QueryPattern := { toLabel := some conceptLabel, relation := some "part_of" }
    let patEx : QueryPattern := { toLabel := some conceptLabel, relation := some "example_of" }
    let compParts := (query st patPart).map (fun r => (r.fromN.label, "component"))
    let moreExamples := (query st patEx).map (fun r => r.fromN.label)
    { base with parts := base.parts ++ compParts,
                examples := base.examples ++ moreExamples }

/-- A heuristic decomposition strategy. -/
structure Heuristic where
  steps : List String
  approach : String

/-- Simple heuristic decomposition keyed by subject. -/
def heuristicDecompose (_concept : String) (subject : String) : Heuristic :=
  if subject = "mathematics" then
    { steps :=
        ["identify what is given (known values)",
         "identify what is asked for (unknown)",
         "determine which formula or method applies",
         "substitute known values",
         "solve step by step",
         "verify the answer makes sense"],
      approach := "mathematical_problem_solving" }
  else if subject = "physics" then
    { steps :=
        ["identify the physical system and forces involved",
         "draw a diagram or model",
         "list known quantities with units",
         "identify the relevant physical laws",
         "set up equations",
         "solve and check units"],
      approach := "physics_problem_solving" }
  else if subject = "biology" then
    { steps :=
        ["identify the biological system or process",
         "break into component structures",
         "understand the function of each component",
         "trace the flow of energy or information",
         "connect to larger systems"],
      approach := "biological_analysis" }
  else if subject = "history" then
    { steps :=
        ["identify the time period and region",
         "understand the context and preceding events",
         "identify the key actors and their motivations",
         "trace the sequence of events",
         "analyze the consequences and lasting effects"],
      approach := "historical_analysis" }
  else if subject = "language" then
    { steps :=
        ["identify the type of language task",
         "break down the sentence structure",
         "identify the parts of speech",
         "apply relevant grammar rules",
         "check for meaning and clarity"],
      approach := "language_analysis" }
  else if subject = "computer_science" then
    { steps :=
        ["understand the problem requirements",
         "identify input and expected output",
         "choose an approach or algorithm",
         "break into smaller sub-problems",
         "implement step by step",
         "test with examples"],
      approach := "computational_thinking" }
  else
    { steps :=
        ["identify the key components of the concept",
         "understand how the components relate to each other",
         "find a simpler analogy or example",
         "build understanding from the simplest part up"],
      approach := "general_decomposition" }

/-- Prerequisites the student might be missing. -/
def identifyGaps (prerequisites : List String) (knownConcepts : List String) :
    List String :=
  prerequisites.filter (fun p => ¬ knownConcepts.contains p)

/-- The known-concept labels gathered from noun_phrase and hierarchy slots
for gap detection. -/
def knownConceptsOf (mem : WorkingMemory) : List String :=
  (mem.slots.map (fun s =>
    if s.tag = "noun_phrase" ∨ s.tag = "hierarchy" then
      (match s.content with
       | .str str => [toLowerS str]
       | .obj _ =>
         match jGet s.content "noun" with
         | some v => [toLowerS (jStr v)]
         | none => []
       | _ => [])
    else [])).flatten

/-- Body of the decompose demon. -/
def decomposeRun (st : Store) (input : DemonInput) : DemonOutput :=
  let focusSlot := latestByTag input.memory "question_focus"
  let intentSlot := latestByTag input.memory "intent"
  let subjectSlot := latestByTag input.memory "subject"
  let concept :=
    match focusSlot with
    | some f => jStr f.content
    | none =>
      match latestByTag input.memory "noun_phrase" with
      | some np => jStr np.content
      | none => ""
  let subject := match subjectSlot with | some s => jStr s.content | none => "general"
  let intent := match intentSlot with | some s => jStr s.content | none => "unknown"
  if concept = "" then { emptyOutput with chain := ["question"] }
  else
    let graphDecomp := decomposeFromGraph st concept
    let heuristic := heuristicDecompose concept subject
    let decompWrites :=
      if graphDecomp.parts.length > 0 then
        [({ content := Json.obj
              [("concept", Json.str concept),
               ("parts", Json.arr (graphDecomp.parts.map (fun p =>
                 Json.obj [("label", Json.str p.1), ("relation", Json.str p.2)]))),
               ("source", Json.str "knowledge_graph")],
            tag := "decomposition", confidence := q08, source_demon := "decompose",
            ttl := 0 } : SlotSpec)]
      else []
    let prereqWrites :=
      if graphDecomp.prerequisites.length > 0 then
        let gaps := identifyGaps graphDecomp.prerequisites (knownConceptsOf input.memory)
        [({ content := Json.obj
              [("concept", Json.str concept),
               ("prerequisites", Json.arr (graphDecomp.prerequisites.map Json.str)),
               ("gaps", Json.arr (gaps.map Json.str))],
            tag := "prerequisites", confidence := q07, source_demon := "decompose",
            ttl := 0 } : SlotSpec)] ++
        (if gaps.length > 0 then
          [({ content := Json.arr (gaps.map Json.str), tag := "knowledge_gaps",
              confidence := q08, source_demon := "decompose", ttl := 0 } : SlotSpec)]
         else [])
      else []
    let exampleWrites :=
      if graphDecomp.examples.length > 0 then
        [({ content := Json.obj
              [("concept", Json.str concept),
               ("examples", Json.arr (graphDecomp.examples.map Json.str))],
            tag := "examples", confidence := q07, source_demon := "decompose",
            ttl := 8 } : SlotSpec)]
      else []
    let stepsWrite : List SlotSpec :=
      [{ content := Json.obj
           [("concept", Json.str concept),
            ("steps", Json.arr (heuristic.steps.map Json.str)),
            ("approach", Json.str heuristic.approach),
            ("subject", Json.str subject)],
         tag := "solution_steps", confidence := q06, source_demon := "decompose",
         ttl := 0 }]
    let confusionWrites :=
      if intent = "confusion" then
        [({ content := Json.obj
              [("simplify", Json.bool true),
               ("original_concept", Json.str concept),
               ("strategy", Json.str "break_into_smallest_parts")],
            tag := "simplification_needed", confidence := q09,
            source_demon := "decompose", ttl := 0 } : SlotSpec)]
      else []
    let chain := (if intent = "confusion" then ["analogize"] else []) ++ ["question"]
    { write := decompWrites ++ prereqWrites ++ exampleWrites ++ stepsWrite ++
        confusionWrites,
      evict := [], focus := [],
      actions := [.log ("Decompose: parts=" ++ natStr graphDecomp.parts.length ++
        ", prereqs=" ++ natStr graphDecomp.prerequisites.length ++
        ", examples=" ++ natStr graphDecomp.examples.length)],
      chain := chain }

/-- The decompose demon. -/
def decomposeDemon : Demon :=
  { id := "decompose", name := "Decompose",
    description := "Breaks complex concepts into simpler parts, prerequisites, and steps.",
    triggers := [.chain "infer", .chain "parse", .tag_present "confusion"],
    run := fun st input => .ok (decomposeRun st input, st) }

/-! ## The analogize demon (src/engine/demons/analogize.ts) -/

/-- A structural relation pattern: relation type to neighbour labels, for
outgoing and incoming edges (Maps in first-seen order). -/
structure RelationPattern where
  noun : String
  outgoing : List (String × List String)
  incoming : List (String × List String)

/-- Append a label under a type key, keeping first-seen key order. -/
def assocAppend : List (String × List String) → String → String → List (String × List String)
  | [], t, lbl => [(t, [lbl])]
  | (u, ls) :: rest, t, lbl =>
    if u = t then (u, ls ++ [lbl]) :: rest else (u, ls) :: assocAppend rest t lbl

/-- Lookup in a type-to-labels map with default empty. -/
def assocGet (m : List (String × List String)) (t : String) : List String :=
  match m.find? (fun p => p.1 = t) with
  | some p => p.2
  | none => []

/-- Extract the relation pattern of a noun from the graph. -/
def extractPattern (st : Store) (nounLabel : String) : Option RelationPattern :=
  match findNoun st nounLabel with
  | none => none
  | some noun =>
    let outgoing := (relationsFrom st noun.id).foldl
      (fun acc rn => assocAppend acc rn.1.type rn.2.label) []
    let incoming := (relationsTo st noun.id).foldl
      (fun acc rn => assocAppend acc rn.1.type rn.2.label) []
    some { noun := nounLabel, outgoing := outgoing, incoming := incoming }

/-- Jaccard-style similarity between two relation patterns: 0.6 times the
outgoing type-set Jaccard plus 0.4 times the incoming one. -/
def patternSimilarity (a b : RelationPattern) : ℚ :=
  let aOut := a.outgoing.map Prod.fst
  let bOut := b.outgoing.map Prod.fst
  let aIn := a.incoming.map Prod.fst
  let bIn := b.incoming.map Prod.fst
  let outUnion := dedupFirst (aOut ++ bOut)
  let outIntersect := aOut.filter (fun t => bOut.contains t)
  let inUnion := dedupFirst (aIn ++ bIn)
  let inIntersect := aIn.filter (fun t => bIn.contains t)
  let outSim : ℚ :=
    if outUnion.length > 0 then (outIntersect.length : ℚ) / (outUnion.length : ℚ) else 0
  let inSim : ℚ :=
    if inUnion.length > 0 then (inIntersect.length : ℚ) / (inUnion.length : ℚ) else 0
  outSim * q06 + inSim * q04

/-- One target mapping of a structural analogy. -/
structure AnalogyMapping where
  sourceRel : String
  sourceTarget : String
  analogRel : String
  analogTarget : String

/-- A scored structural analogy. -/
structure ScoredAnalogy where
  analog : String
  similarity : ℚ
  sharedTypes : List String
  mapping : List AnalogyMapping

/-- Find concepts structurally similar to the given one. -/
def findAnalogies (st : Store) (conceptLabel : String) (limit : Nat) :
    List ScoredAnalogy :=
  match extractPattern st conceptLabel with
  | none => []
  | some pattern =>
    let candidates := dedupFirst
      (((pattern.outgoing.map Prod.fst).map (fun relType =>
        (query st { relation := some relType }).filterMap (fun r =>
          if ¬ r.fromN.label = conceptLabel then some r.fromN.label else none))).flatten)
    let scored := candidates.filterMap (fun candidateLabel =>
      match extractPattern st candidateLabel with
      | none => none
      | some candidatePattern =>
        let similarity := patternSimilarity pattern candidatePattern
        if similarity < q03 then none
        else
          let sharedTypes := (pattern.outgoing.map Prod.fst).filter
            (fun t => (candidatePattern.outgoing.map Prod.fst).contains t)
          let mapping := sharedTypes.filterMap (fun relType =>
            let sourceTargets := assocGet pattern.outgoing relType
            let analogTargets := assocGet candidatePattern.outgoing relType
            match sourceTargets, analogTargets with
            | s0 :: _, a0 :: _ =>
              some ({ sourceRel := relType, sourceTarget := s0,
                      analogRel := relType, analogTarget := a0 } : AnalogyMapping)
            | _, _ => none)
          some ({ analog := candidateLabel, similarity := similarity,
                  sharedTypes := sharedTypes, mapping := mapping } : ScoredAnalogy))
    (List.insertionSort
      (fun a b : ScoredAnalogy => b.similarity ≤ a.similarity) scored).take limit

/-- The hardcoded cross-domain analogies table. -/
def COMMON_ANALOGIES : List (String × List (String × String)) :=
  [("electricity",
    [("water flow",
      "Electricity flows through wires like water flows through pipes. Voltage is like water pressure, current is like flow rate.")]),
   ("atom",
    [("solar system",
      "An atom is like a tiny solar system: the nucleus is the sun, and electrons orbit around it like planets.")]),
   ("cell",
    [("factory",
      "A cell is like a factory: it has a control center (nucleus), an energy plant (mitochondria), shipping department (Golgi body), and walls (cell membrane).")]),
   ("dna",
    [("blueprint",
      "DNA is like a blueprint for a building. It contains all the instructions needed to build and maintain a living thing.")]),
   ("variable",
    [("box",
      "A variable is like a labeled box. You can put different things inside it, but the label stays the same.")]),
   ("function",
    [("machine",
      "A function is like a machine: you put something in (input), the machine does something to it, and something comes out (output).")]),
   ("evolution",
    [("selective breeding",
      "Evolution is like natural selective breeding. Instead of a farmer choosing which animals to breed, the environment \"chooses\" which organisms survive.")]),
   ("gravity",
    [("magnet",
      "Gravity is like a magnet that pulls everything toward the center of a massive object. The bigger the object, the stronger the pull.")])]

/-- Slot writes for one concept: hardcoded analogies first, then up to two
structural analogies from the graph. -/
def analogizeConcept (st : Store) (concept : String) : List SlotSpec :=
  let common :=
    match COMMON_ANALOGIES.find? (fun p => p.1 = toLowerS concept) with
    | some p =>
      p.2.map (fun a =>
        ({ content := Json.obj
             [("concept", Json.str concept), ("analog", Json.str a.1),
              ("explanation", Json.str a.2), ("source", Json.str "common_knowledge")],
           tag := "analogy", confidence := q085, source_demon := "analogize",
           ttl := 0 } : SlotSpec))
    | none => []
  let structural := (findAnalogies st concept 2).map (fun a =>
    ({ content := Json.obj
         [("concept", Json.str concept), ("analog", Json.str a.analog),
          ("similarity", Json.num a.similarity),
          ("sharedPatterns", Json.arr (a.sharedTypes.map Json.str)),
          ("mapping", Json.arr (a.mapping.map (fun m =>
            Json.obj [("sourceRel", Json.str m.sourceRel),
                      ("sourceTarget", Json.str m.sourceTarget),
                      ("analogRel", Json.str m.analogRel),
                      ("analogTarget", Json.str m.analogTarget)]))),
          ("source", Json.str "structural_analogy")],
       tag := "analogy", confidence := a.similarity, source_demon := "analogize",
       ttl := 0 } : SlotSpec))
  common ++ structural

/-- Body of the analogize demon. -/
def analogizeRun (st : Store) (input : DemonInput) : DemonOutput :=
  let focusSlot := latestByTag input.memory "question_focus"
  let nounSlots := findByTag input.memory "noun_phrase"
  let concepts :=
    (match focusSlot with | some f => [jStr f.content] | none => []) ++
    nounSlots.map (fun s => jStr s.content)
  if concepts.isEmpty then { emptyOutput with chain := ["question"] }
  else
    let writes := (concepts.map (analogizeConcept st)).flatten
    { write := writes, evict := [], focus := [],
      actions := [.log ("Analogize: found " ++ natStr writes.length ++
        " analogies for [" ++ joinComma concepts ++ "]")],
      chain := ["question"] }

/-- The analogize demon. -/
def analogizeDemon : Demon :=
  { id := "analogize", name := "Analogize",
    description := "Finds structural analogies between concepts to aid understanding.",
    triggers := [.chain "decompose", .chain "relate", .tag_present "simplification_needed"],
    run := fun st input => .ok (analogizeRun st input, st) }

/-! ## The question demon (src/engine/demons/question.ts) -/

/-- Nested string property access, as in content.claim1.from. -/
def jGetIn (j : Json) (k1 k2 : String) : String :=
  match jGet j k1 with
  | some v => jGetStr v k2
  | none => ""

/-- The four generic greeting templates. -/
def greetingTemplates : List String :=
  ["Hello! I" ++ aposS ++ "m here to help you learn. What would you like to explore today?",
   "Hi there! What topic are you curious about?",
   "Welcome! What would you like to understand better today?",
   "Hey! Ready to learn something new? What" ++ aposS ++ "s on your mind?"]

/-- Greeting response: subject-aware when a subject was detected, otherwise a
random template (randIdx models the Math.random draw). -/
def buildGreetingResponse (subject : String) (randIdx : Nat) : String :=
  if ¬ subject = "general" then
    "Hello! I see you" ++ aposS ++ "re interested in " ++ subject ++
      ". What specifically would you like to explore?"
  else
    greetingTemplates.getD (randIdx % greetingTemplates.length) ""

/-- Narrate the first contradiction and ask which side is right. -/
def buildContradictionResponse (contradictions : List MemSlot) : String :=
  match contradictions with
  | [] => ""
  | first :: _ =>
    "Hmm, I notice something interesting. You mentioned that \"" ++
      jGetIn first.content "claim1" "from" ++ "\" relates to both \"" ++
      jGetIn first.content "claim1" "to" ++ "\" and \"" ++
      jGetIn first.content "claim2" "to" ++ "\". But " ++
      jGetStr first.content "reason" ++
      ". Can you think about which one is correct, and why?"

/-- Simplification response for a confused student. -/
def buildConfusionResponse (focus : String) (analogies decompositions _steps : List MemSlot) :
    String :=
  let parts : List String :=
    ["No worries — let" ++ aposS ++ "s break this down step by step."] ++
    (match analogies with
     | a :: _ =>
       if ¬ jGetStr a.content "explanation" = "" then
         ["Think of it this way: " ++ jGetStr a.content "explanation"]
       else
         ["It might help to think of \"" ++ jGetStr a.content "concept" ++
          "\" as similar to \"" ++ jGetStr a.content "analog" ++ "\"."]
     | [] => []) ++
    (match decompositions with
     | d :: _ =>
       (match jGetArr d.content "parts" with
        | p0 :: _ =>
          ["Let" ++ aposS ++ "s start with the simplest part: \"" ++
           jGetStr p0 "label" ++ "\". What do you already know about it?"]
        | [] => [])
     | [] =>
       if ¬ focus = "" then
         ["Let" ++ aposS ++ "s start from the very beginning. What do you already know about " ++
          focus ++ "?"]
       else [])
  joinNl2 parts
where joinNl2 : List String → String
  | [] => ""
  | [w] => w
  | w :: rest => w ++ "\n\n" ++ joinNl2 rest

/-- Join paragraphs with blank lines. -/
def joinParas : List String → String
  | [] => ""
  | [w] => w
  | w :: rest => w ++ "\n\n" ++ joinParas rest

/-- Assessment-based response to a student claim. -/
def buildClaimResponse (assessment : MemSlot) (_relations inferred : List MemSlot) :
    String :=
  let confidence := jGetNum assessment.content "confidence"
  let unsupported := jStrList ((jGet assessment.content "unsupported").getD (Json.arr []))
  if confidence > q07 ∧ unsupported.length = 0 then
    let followUp :=
      match inferred with
      | i :: _ =>
        "Now, if that" ++ aposS ++ "s true, what does it tell us about " ++
          jGetStr i.content "to" ++ "?"
      | [] => "Good thinking! Can you explain *why* that is the case?"
    "That" ++ aposS ++ "s on the right track! " ++ followUp
  else if confidence < q03 then
    match unsupported with
    | u0 :: _ =>
      "I" ++ aposS ++ "m not sure about that. Let" ++ aposS ++
        "s check: what exactly do you mean by \"" ++ u0 ++
        "\"? Can you explain it in your own words?"
    | [] =>
      "Let" ++ aposS ++
        "s slow down and think about this more carefully. What makes you think that? What evidence do you have?"
  else
    match unsupported with
    | u0 :: _ =>
      "You" ++ aposS ++ "re partly right! But I" ++ aposS ++
        "m curious about the part where you mention \"" ++ u0 ++
        "\". How does that connect to what we know?"
    | [] =>
      "Interesting! You" ++ aposS ++
        "re getting there. Can you think of a specific example that would support or challenge your idea?"

/-- Fallback response. -/
def buildFallbackResponse (focus : String) (_subject : String) : String :=
  if ¬ focus = "" then
    "Let" ++ aposS ++ "s explore \"" ++ focus ++
      "\" together. What aspect of it interests you most? What do you already know about it?"
  else
    "I" ++ aposS ++ "d love to help you learn! What topic or question would you like to explore?"

/-- The leading question keyed by the first relation's type. -/
def relationQuestion (relJ : Json) : String :=
  let ty := jGetStr relJ "type"
  let fromS := jGetStr relJ "from"
  if ty = "causes" then
    "Think about what happens when \"" ++ fromS ++
      "\" occurs. What do you think the effect would be?"
  else if ty = "is_a" then
    "\"" ++ fromS ++ "\" is a type of something larger. Can you guess what category it belongs to?"
  else if ty = "has" ∨ ty = "contains" then
    "\"" ++ fromS ++ "\" is made up of different parts. What components do you think it has?"
  else if ty = "requires" then
    "To understand \"" ++ fromS ++
      "\", we need to first understand something else. What do you think that prerequisite might be?"
  else if ty = "opposes" then
    "\"" ++ fromS ++ "\" has an opposite. What do you think that opposite is, and why?"
  else
    "Let" ++ aposS ++ "s think about how \"" ++ fromS ++ "\" and \"" ++
      jGetStr relJ "to" ++ "\" are connected. What relationship do you see between them?"

/-- The optional hint naming up to three decomposition parts. -/
def decompositionHint (decompositions : List MemSlot) : List String :=
  match decompositions with
  | d :: _ =>
    let parts := jGetArr d.content "parts"
    if parts.length > 1 then
      ["Hint: think about the different parts involved. There" ++ aposS ++ "s " ++
        joinComma ((parts.map (fun p => "\"" ++ jGetStr p "label" ++ "\"")).take 3) ++
        ", among others."]
    else []
  | [] => []

/-- Guide-to-the-answer response for questions and requests. -/
def buildQuestionResponse (focus subject : String)
    (relations inferred decompositions _prerequisites knowledgeGaps analogies
      examples steps : List MemSlot)
    (unknownConcepts : Option MemSlot) : String :=
  match knowledgeGaps.head? with
  | some kg =>
    (match jStrList kg.content with
     | g0 :: _ =>
       "Before we tackle \"" ++ focus ++ "\", let" ++ aposS ++
         "s make sure we have the foundation. What do you know about \"" ++ g0 ++ "\"?"
     | [] => buildQuestionRest focus subject relations inferred decompositions
         knowledgeGaps analogies examples steps unknownConcepts)
  | none => buildQuestionRest focus subject relations inferred decompositions
      knowledgeGaps analogies examples steps unknownConcepts
where
  buildQuestionRest (focus subject : String)
      (relations _inferred decompositions _knowledgeGaps analogies examples
        steps : List MemSlot) (unknownConcepts : Option MemSlot) : String :=
    let unknownBranch :=
      match unknownConcepts with
      | some uc =>
        let unknown := jStrList uc.content
        if unknown.length > 0 ∧ unknown.contains focus then
          some (joinParas
            (["That" ++ aposS ++ "s a great question! \"" ++ focus ++
              "\" is something we can explore together."] ++
             (match analogies with
              | a :: _ =>
                if ¬ jGetStr a.content "explanation" = "" then
                  [jGetStr a.content "explanation"]
                else []
              | [] => []) ++
             (match steps with
              | s :: _ =>
                ["Let" ++ aposS ++ "s start by " ++
                  ((jStrList ((jGet s.content "steps").getD (Json.arr []))).headD "") ++
                  ". What can you tell me about that?"]
              | [] =>
                ["Let" ++ aposS ++
                  "s start simple: have you encountered this idea before, even in a different context?"])))
        else none
      | none => none
    match unknownBranch with
    | some r => r
    | none =>
      let parts : List String :=
        match relations with
        | r :: _ => [relationQuestion r.content] ++ decompositionHint decompositions
        | [] =>
          match analogies with
          | a :: _ =>
            if ¬ jGetStr a.content "explanation" = "" then
              [jGetStr a.content "explanation",
               "With that analogy in mind, what would you guess about \"" ++ focus ++ "\"?"]
            else []
          | [] =>
            match examples with
            | e :: _ =>
              ["Let" ++ aposS ++ "s think about some examples. Consider \"" ++
                ((jStrList ((jGet e.content "examples").getD (Json.arr []))).headD "") ++
                "\". How does that relate to the bigger idea of \"" ++ focus ++ "\"?"]
            | [] =>
              ["That" ++ aposS ++ "s a really interesting question about \"" ++ focus ++ "\"!",
               "Let" ++ aposS ++ "s think about it together. What" ++ aposS ++
                 "s your intuition? Even a guess is a good starting point."]
      if parts.isEmpty then buildFallbackResponse focus subject
      else joinParas parts

/-- Acknowledge a correction. -/
def buildCorrectionResponse (focus : String) (_relations : List MemSlot) : String :=
  "I appreciate the correction! Let" ++ aposS ++
    "s reconsider. What specifically about \"" ++ focus ++
    "\" did I get wrong? Help me understand your reasoning."

/-- Build a Socratic response based on everything in working memory. -/
def buildResponse (input : DemonInput) : String :=
  let mem := input.memory
  let intent := latestByTag mem "intent"
  let subject := latestByTag mem "subject"
  let focus := latestByTag mem "question_focus"
  let relations := findByTag mem "relation"
  let inferred := findByTag mem "inferred_relation"
  let contradictions := findByTag mem "contradiction"
  let decompositions := findByTag mem "decomposition"
  let prerequisites := findByTag mem "prerequisites"
  let knowledgeGaps := findByTag mem "knowledge_gaps"
  let analogies := findByTag mem "analogy"
  let examples := findByTag mem "examples"
  let steps := findByTag mem "solution_steps"
  let claimAssessment := latestByTag mem "claim_assessment"
  let unknownConcepts := latestByTag mem "unknown_concepts"
  let simplificationNeeded := latestByTag mem "simplification_needed"
  let intentStr := match intent with | some s => jStr s.content | none => "unknown"
  let subjectStr := match subject with | some s => jStr s.content | none => "general"
  let focusStr := match focus with | some s => jStr s.content | none => ""
  if intentStr = "greeting" then buildGreetingResponse subjectStr input.randIdx
  else if contradictions.length > 0 then buildContradictionResponse contradictions
  else if intentStr = "confusion" ∨ simplificationNeeded.isSome then
    buildConfusionResponse focusStr analogies decompositions steps
  else if intentStr = "claim" ∧ claimAssessment.isSome then
    match claimAssessment with
    | some ca => buildClaimResponse ca relations inferred
    | none => buildFallbackResponse focusStr subjectStr
  else if intentStr = "question" ∨ intentStr = "request" then
    buildQuestionResponse focusStr subjectStr relations inferred decompositions
      prerequisites knowledgeGaps analogies examples steps unknownConcepts
  else if intentStr = "correction" then buildCorrectionResponse focusStr relations
  else buildFallbackResponse focusStr subjectStr

/-- Body of the question demon: build the response, store it as a slot, and
emit the terminal respond action. -/
def questionRun (input : DemonInput) : DemonOutput :=
  let response := buildResponse input
  { write := [{ content := .str response, tag := "response", confidence := q08,
                source_demon := "question", ttl := 20 }],
    evict := [], focus := [],
    actions := [.respond response],
    chain := [] }

/-- The question demon. -/
def questionDemon : Demon :=
  { id := "question", name := "Question",
    description := "Generates Socratic responses based on everything in working memory.",
    triggers := [.chain "infer", .chain "decompose", .chain "analogize",
                 .chain "relate", .chain "parse"],
    run := fun st input => .ok (questionRun input, st) }

/-! ## The learn demon (src/engine/demons/learn.ts) -/

/-- Body of the learn demon; the only demon that mutates the store. -/
def learnRun (st : Store) (input : DemonInput) : DemonOutput × Store :=
  let subject :=
    match latestByTag input.memory "subject" with
    | some s => jStr s.content
    | none => "general"
  let nounSlots := findByTag input.memory "noun_phrase"
  let p1 := nounSlots.foldl (fun (acc : Store × Nat) slot =>
    let label := jStr slot.content
    if label.length < 2 ∨ label.length > 100 then acc
    else
      ((ensureNoun acc.1 label (inferNounType label subject) (Json.obj [])).2,
        acc.2 + 1)) (st, 0)
  let st1 := p1.1
  let storedNouns := p1.2
  let st2 := if ¬ subject = "general"
    then (ensureNoun st1 subject "context" (Json.obj [])).2 else st1
  let p3 :=
    match latestByTag input.memory "raw_input" with
    | some rawSlot =>
      let text := jStr rawSlot.content
      (extractImpliedRelations text).foldl (fun (acc : Store × Nat) (rel : ImpliedRel) =>
        ((link acc.1 rel.from' rel.type rel.to' q06
            (if ¬ subject = "general" then some subject else none)).store,
          acc.2 + 1)) (st2, 0)
    | none => (st2, 0)
  let st3 := p3.1
  let storedRelations := p3.2
  let p4 := (findByTag input.memory "relation").foldl (fun (acc : Store × Nat) slot =>
    if slot.confidence < q05 then acc
    else
      let rel := jRel slot.content
      ((link acc.1 rel.from' rel.type rel.to' rel.weight
          (if ¬ subject = "general" then some subject else none)).store,
        acc.2 + 1)) (st3, 0)
  let st4 := p4.1
  let storedRelations2 := storedRelations + p4.2
  let intent :=
    match latestByTag input.memory "intent" with
    | some s => jStr s.content
    | none => "unknown"
  let focus :=
    match latestByTag input.memory "question_focus" with
    | some s => jStr s.content
    | none => ""
  let p5 :=
    if ¬ focus = "" then
      let r1 := ensureNoun st4 "student" "entity" (Json.obj [])
      let r2 := ensureNoun r1.2 focus "concept" (Json.obj [])
      let st6 :=
        if (findByTag input.memory "student_topic").isEmpty then
          (createRelation r2.2 r1.1.id r2.1.id "relates_to" q08 none
            (Json.obj [("type", Json.str "currently_studying"),
                       ("timestamp", Json.num (r2.2.clock : ℚ))])).2
        else r2.2
      (st6,
        [({ content := Json.obj
              [("topic", Json.str focus), ("subject", Json.str subject),
               ("intent", Json.str intent)],
            tag := "student_topic", confidence := q09, source_demon := "learn",
            ttl := 30 } : SlotSpec)])
    else (st4, [])
  let st7 := p5.1
  let confusionWrites :=
    if intent = "confusion" then
      [({ content := Json.obj
            [("confused_about", Json.str focus), ("subject", Json.str subject),
             ("tick", Json.num (input.memory.tick : ℚ))],
          tag := "student_confusion", confidence := q09, source_demon := "learn",
          ttl := 50 } : SlotSpec)]
    else []
  ({ write := p5.2 ++ confusionWrites, evict := [], focus := [],
     actions := [.log ("Learn: stored " ++ natStr storedNouns ++ " nouns, " ++
       natStr storedRelations2 ++ " relations")],
     chain := [] }, st7)

/-- The learn demon. -/
def learnDemon : Demon :=
  { id := "learn", name := "Learn",
    description := "Persists new concepts and relations to the knowledge graph after reasoning.",
    triggers := [.tag_present "response", .tick_interval 5],
    run := fun st input => .ok (learnRun st input) }

/-- The demon registry, in the Map order of the source. -/
def DEMONS : List Demon :=
  [parseDemon, relateDemon, inferDemon, decomposeDemon, analogizeDemon,
   questionDemon, learnDemon]

/-! ## The hypervisor scheduler (src/engine/hypervisor/scheduler.ts) -/

/-- Scheduler configuration. -/
structure HypervisorConfig where
  maxTicksPerTurn : Nat
  maxDemonsPerTick : Nat
  maxMemorySlots : Nat
  tickTimeoutMs : Nat

/-- The default configuration. -/
def DEFAULT_CONFIG : HypervisorConfig :=
  { maxTicksPerTurn := 20, maxDemonsPerTick := 5, maxMemorySlots := 100,
    tickTimeoutMs := 500 }

/-- The record of one tick. -/
structure TickResult where
  tick : Nat
  demons_fired : List String
  slots_written : List String
  slots_evicted : List String
  actions : List DemonAction
  duration_ms : Nat

/-- The hypervisor state.  Besides the fields of the source it carries the
fresh-id counter (nanoid), the logical clock (Date.now), the Math.random
index, and the ghost writeLog. -/
structure HypervisorState where
  memory : WorkingMemory
  config : HypervisorConfig
  history : List TickResult
  store : Store
  nextSlotId : Nat
  now : Nat
  randIdx : Nat
  writeLog : List MemSlot

/-- Create a hypervisor state over a given store. -/
def createHypervisor (store : Store) (config : HypervisorConfig := DEFAULT_CONFIG)
    (randIdx : Nat := 0) : HypervisorState :=
  { memory := createWorkingMemory, config := config, history := [], store := store,
    nextSlotId := 0, now := 0, randIdx := randIdx, writeLog := [] }

/-- Result of writing a demon output's slots. -/
structure WriteResult where
  memory : WorkingMemory
  written : List MemSlot
  nextSlotId : Nat

/-- Write the new slots of a demon output, drawing fresh ids. -/
def applyWrites : WorkingMemory → List SlotSpec → Nat → Nat → WriteResult
  | mem, [], n, _ => { memory := mem, written := [], nextSlotId := n }
  | mem, spec :: rest, n, now =>
    let r := writeSlot mem spec ("s" ++ natStr n) now
    let rr := applyWrites r.1 rest (n + 1) now
    { rr with written := r.2 :: rr.written }

/-- Evict the slots a demon output requests, keeping the ids that were
present. -/
def applyEvicts : WorkingMemory → List String → WorkingMemory × List String
  | mem, [] => (mem, [])
  | mem, id :: rest =>
    let r := evictSlot mem id
    let rr := applyEvicts r.1 rest
    (rr.1, (if r.2 then [id] else []) ++ rr.2)

/-- Update the focus if the output requests one. -/
def applyFocus (mem : WorkingMemory) (focusIds : List String) : WorkingMemory :=
  if focusIds.length > 0 then setFocus mem focusIds else mem

/-- Result of applying one demon output. -/
structure ApplyResult where
  memory : WorkingMemory
  slotsWritten : List String
  slotsEvicted : List String
  nextSlotId : Nat
  written : List MemSlot

/-- Apply a demon's output to working memory: writes, evictions, focus, then
the slot-count limit. -/
def applyDemonOutput (mem : WorkingMemory) (output : DemonOutput) (maxSlots : Nat)
    (nextSlotId now : Nat) : ApplyResult :=
  let w := applyWrites mem output.write nextSlotId now
  let e := applyEvicts w.memory output.evict
  let f := applyFocus e.1 output.focus
  let l := enforceLimit f maxSlots
  { memory := l.1, slotsWritten := w.written.map (fun s => s.id),
    slotsEvicted := e.2 ++ l.2, nextSlotId := w.nextSlotId, written := w.written }

/-- State of the demon-firing loop within one tick. -/
structure FireState where
  memory : WorkingMemory
  store : Store
  response : String
  fired : List String
  demonsFired : List String
  slotsWritten : List String
  slotsEvicted : List String
  tickActions : List DemonAction
  nextDemons : List String
  clearPending : Bool
  nextSlotId : Nat
  randIdx : Nat
  writeLog : List MemSlot

/-- Scan a demon's actions for respond, keeping the last respond text. -/
def scanRespond (actions : List DemonAction) (response : String) : String :=
  actions.foldl (fun r a => match a with | .respond t => t | _ => r) response

/-- Fire the demons of one tick in order: skip ids already fired, skip
missing demons, stop the tick on timeout, catch demon errors, apply each
output immediately, collect the response and the chain hints (hints are
collected only while no response exists, and ids already fired this tick are
dropped), and terminate the whole turn when a response exists and the chain
is empty. -/
def fireLoop (reg : List Demon) (cfg : HypervisorConfig) (startNow now tick : Nat) :
    List String → FireState → FireState
  | [], fs => fs
  | demonId :: rest, fs =>
    if fs.fired.contains demonId then fireLoop reg cfg startNow now tick rest fs
    else
      let fs1 := { fs with fired := fs.fired ++ [demonId] }
      match getDemon reg demonId with
      | none => fireLoop reg cfg startNow now tick rest fs1
      | some demon =>
        if now - startNow > cfg.tickTimeoutMs then
          { fs1 with tickActions := fs1.tickActions ++
              [.log ("Tick " ++ natStr tick ++ ": timeout")] }
        else
          match demon.run fs1.store
              { memory := fs1.memory,
                context := ((findByTag fs1.memory "subject").head?).map (fun (s : MemSlot) => s.content),
                randIdx := fs1.randIdx } with
          | .error msg =>
            fireLoop reg cfg startNow now tick rest
              { fs1 with tickActions := fs1.tickActions ++
                  [.log ("Demon \"" ++ demonId ++ "\" threw: " ++ msg)] }
          | .ok (output, store') =>
            let ar := applyDemonOutput fs1.memory output cfg.maxMemorySlots
              fs1.nextSlotId now
            let response' := scanRespond output.actions fs1.response
            let fs2 :=
              { fs1 with
                  demonsFired := fs1.demonsFired ++ [demonId],
                  store := store',
                  memory := ar.memory,
                  slotsWritten := fs1.slotsWritten ++ ar.slotsWritten,
                  slotsEvicted := fs1.slotsEvicted ++ ar.slotsEvicted,
                  tickActions := fs1.tickActions ++ output.actions,
                  nextSlotId := ar.nextSlotId,
                  writeLog := fs1.writeLog ++ ar.written,
                  response := response' }
            let fs3 :=
              if response' = "" then
                { fs2 with nextDemons := fs2.nextDemons ++
                    output.chain.filter (fun c => ¬ fs2.fired.contains c) }
              else fs2
            if ¬ response' = "" ∧ output.chain.isEmpty then
              { fs3 with nextDemons := [], clearPending := true }
            else fireLoop reg cfg startNow now tick rest fs3

/-- Merge the chain suggestions into the pending queue, deduplicated against
what is already pending. -/
def mergePending (pending : List String) (next : List String) : List String :=
  next.foldl (fun acc id => if acc.contains id then acc else acc ++ [id]) pending

/-- State of the turn-level tick loop. -/
structure LoopState where
  memory : WorkingMemory
  store : Store
  pending : List String
  response : String
  ticks : List TickResult
  allActions : List DemonAction
  nextSlotId : Nat
  now : Nat
  randIdx : Nat
  writeLog : List MemSlot

/-- The fire-loop state produced within one tick: fire up to
maxDemonsPerTick pending demons starting from a fresh per-tick FireState. -/
def tickFire (reg : List Demon) (cfg : HypervisorConfig) (ls : LoopState) : FireState :=
  fireLoop reg cfg ls.now ls.now ls.memory.tick (ls.pending.take cfg.maxDemonsPerTick)
    { memory := ls.memory, store := ls.store, response := ls.response, fired := [],
      demonsFired := [], slotsWritten := [], slotsEvicted := [], tickActions := [],
      nextDemons := [], clearPending := false, nextSlotId := ls.nextSlotId,
      randIdx := ls.randIdx, writeLog := ls.writeLog }

/-- Execute one tick: fire up to maxDemonsPerTick pending demons, advance
the working-memory clock, record the tick, and merge the chain hints into
the remaining queue. -/
def runTick (reg : List Demon) (cfg : HypervisorConfig) (ls : LoopState) : LoopState :=
  let fs := tickFire reg cfg ls
  let remaining := if fs.clearPending then [] else ls.pending.drop cfg.maxDemonsPerTick
  let tm := tickMemory fs.memory
  let tickResult : TickResult :=
    { tick := ls.memory.tick, demons_fired := fs.demonsFired,
      slots_written := fs.slotsWritten,
      slots_evicted := fs.slotsEvicted ++ tm.2, actions := fs.tickActions,
      duration_ms := ls.now - ls.now }
  { memory := tm.1, store := fs.store,
    pending := mergePending remaining fs.nextDemons,
    response := fs.response,
    ticks := ls.ticks ++ [tickResult],
    allActions := ls.allActions ++ fs.tickActions,
    nextSlotId := fs.nextSlotId, now := ls.now + 1, randIdx := ls.randIdx,
    writeLog := fs.writeLog }

/-- The bounded tick loop: run while demons are pending, at most
maxTicksPerTurn ticks, stopping once a response exists and the queue is
empty. -/
def tickLoop (reg : List Demon) (cfg : HypervisorConfig) : Nat → LoopState → LoopState
  | 0, ls => ls
  | fuel + 1, ls =>
    if ls.pending.isEmpty then ls
    else
      let ls' := runTick reg cfg ls
      if ¬ ls'.response = "" ∧ ls'.pending.isEmpty then ls'
      else tickLoop reg cfg fuel ls'

/-- The canonical fallback response text. -/
def fallbackText : String :=
  "I" ++ aposS ++ "d love to help you learn! What topic would you like to explore?"

/-- Use the fallback when no demon emitted a respond action. -/
def finalizeResponse (r : String) : String := if r = "" then fallbackText else r

/-- The ephemeral tags swept at the end of a turn. -/
def tagsToEvict : List String :=
  ["raw_input", "intent", "noun_phrase", "question_focus",
   "relation", "context_fact", "hierarchy", "inferred_relation",
   "contradiction", "claim_assessment", "unknown_concepts",
   "decomposition", "prerequisites", "knowledge_gaps", "examples",
   "solution_steps", "simplification_needed", "analogy", "fuzzy_match"]

/-- Evict every slot carrying one of the given tags. -/
def sweepTags (mem : WorkingMemory) : List String → WorkingMemory
  | [] => mem
  | tag :: rest =>
    let mem' := (findByTag mem tag).foldl (fun m s => (evictSlot m s.id).1) mem
    sweepTags mem' rest

/-- The result of one turn. -/
structure ProcessResult where
  response : String
  ticks : List TickResult
  actions : List DemonAction
  state : HypervisorState

/-- The loop state at the start of a turn: the raw input written as a slot
and the queue seeded with the new_input demons. -/
def initialLoopState (reg : List Demon) (state : HypervisorState) (userInput : String) :
    LoopState :=
  let w := writeSlot state.memory
    { content := .str userInput, tag := "raw_input", confidence := 1,
      source_demon := "user", ttl := 0 }
    ("s" ++ natStr state.nextSlotId) state.now
  { memory := w.1, store := state.store,
    pending := (getTriggeredDemons reg .new_input).map (fun d => d.id),
    response := "",
    ticks := [], allActions := [], nextSlotId := state.nextSlotId + 1,
    now := state.now, randIdx := state.randIdx,
    writeLog := state.writeLog ++ [w.2] }

/-- The learn pass fired once after the tick loop (the tail of process()),
its error swallowed. -/
def applyLearn (reg : List Demon) (cfg : HypervisorConfig) (ls : LoopState) : LoopState :=
  match getDemon reg "learn" with
  | some learnD =>
    match learnD.run ls.store
        { memory := ls.memory,
          context := ((findByTag ls.memory "subject").head?).map (fun (s : MemSlot) => s.content),
          randIdx := ls.randIdx } with
    | .ok (out, store') =>
      let ar := applyDemonOutput ls.memory out cfg.maxMemorySlots
        ls.nextSlotId ls.now
      { ls with memory := ar.memory, store := store', nextSlotId := ar.nextSlotId,
                allActions := ls.allActions ++ out.actions,
                writeLog := ls.writeLog ++ ar.written }
    | .error _ => ls
  | none => ls

/-- The turn pipeline before the fallback: write the raw input, seed the
queue with the new_input demons, run the tick loop, fire learn once, then
sweep the ephemeral tags. -/
def processInputCore (reg : List Demon) (state : HypervisorState) (userInput : String) :
    ProcessResult :=
  let ls := tickLoop reg state.config state.config.maxTicksPerTurn
    (initialLoopState reg state userInput)
  let afterLearn := applyLearn reg state.config ls
  let memSwept := sweepTags afterLearn.memory tagsToEvict
  { response := afterLearn.response, ticks := afterLearn.ticks,
    actions := afterLearn.allActions,
    state :=
      { memory := memSwept, config := state.config,
        history := state.history ++ afterLearn.ticks, store := afterLearn.store,
        nextSlotId := afterLearn.nextSlotId, now := afterLearn.now + 1,
        randIdx := state.randIdx, writeLog := afterLearn.writeLog } }

/-- Process a user message through the full demon pipeline. -/
def processInput (reg : List Demon) (state : HypervisorState) (userInput : String) :
    ProcessResult :=
  let r := processInputCore reg state userInput
  { r with response := finalizeResponse r.response }

/-! ## Theorems about the claims -/

/-! ### C8: serialization round trip -/

/-- Decoding a natural number stored as a JSON number recovers it. -/
theorem jNat?_natCast (n : Nat) : jNat? (.num (n : ℚ)) = some n := by
  simp [jNat?, Rat.den_natCast, Rat.num_natCast]

/-- One slot survives the serialize/decode round trip. -/
theorem slotOfJson_slotToJson (s : MemSlot) : slotOfJson (slotToJson s) = some s := by
  rcases s with ⟨id, noun_id, content, tag, conf, sd, ttl, ca⟩
  cases noun_id <;>
    simp [slotToJson, slotOfJson, jGet, jGet.go, jNat?, Rat.den_natCast, Rat.num_natCast]

/-- The slot map survives the round trip. -/
theorem slotsOfEntries_map (slots : List MemSlot) :
    slotsOfEntries (slots.map (fun s => (s.id, slotToJson s))) = some slots := by
  induction slots with
  | nil => rfl
  | cons s rest ih => simp [slotsOfEntries, slotOfJson_slotToJson, ih]

/-- The focus list survives the round trip, in order. -/
theorem focusOfJson_map (focus : List String) :
    focusOfJson (focus.map Json.str) = some focus := by
  induction focus with
  | nil => rfl
  | cons f rest ih => simp [focusOfJson, ih]

/-- C8: for every working memory M (slots, focus list, tick counter, with
JSON-representable slot contents — slot contents are Json values in this
model), deserialize (serialize M) equals M: every slot with all its fields,
the focus list in order, and the tick counter survive the round trip
unchanged. -/
theorem C8_serialize_roundtrip (M : WorkingMemory) :
    deserialize (serialize M) = some M := by
  rcases M with ⟨slots, focus, tick⟩
  simp [serialize, deserialize, jGet, jGet.go, slotsOfEntries_map, focusOfJson_map,
    jNat?_natCast]

/-! ### C4: the working-memory slot bound and the eviction order -/

/-- The slot ids of a memory are pairwise distinct (true of the running
engine, whose ids come from nanoid / the fresh-id counter). -/
def slotIdsNodup (mem : WorkingMemory) : Prop :=
  (mem.slots.map (fun s => s.id)).Nodup

/-- Deleting a present id from a duplicate-free slot list shrinks it by
exactly one. -/
theorem length_filter_ne_of_nodup (slots : List MemSlot) (sid : String)
    (hn : (slots.map (fun s => s.id)).Nodup) (hm : sid ∈ slots.map (fun s => s.id)) :
    (slots.filter (fun t => ¬ t.id = sid)).length + 1 = slots.length := by
  induction slots with
  | nil => simp at hm
  | cons a l ih =>
    simp only [List.map_cons, List.nodup_cons] at hn
    rcases hn with ⟨hna, hnl⟩
    simp only [List.map_cons, List.mem_cons] at hm
    rcases hm with rfl | hm
    · have hall : l.filter (fun t => ¬ t.id = a.id) = l := by
        apply List.filter_eq_self.2
        intro t ht
        simp only [decide_eq_true_eq]
        intro hEq
        exact hna (hEq ▸ List.mem_map_of_mem (fun s => s.id) ht)
      simp only [List.filter_cons, decide_eq_true_eq]
      rw [if_neg (by simp), hall, List.length_cons]
    · have hne : ¬ a.id = sid := fun h => hna (h ▸ hm)
      have h2 := ih hnl hm
      simp only [List.filter_cons, decide_eq_true_eq]
      rw [if_pos hne, List.length_cons, List.length_cons]
      omega

/-- The eviction while loop leaves at most maxSlots slots when the
candidate list covers the memory. -/
theorem evictLoop_length (l : List MemSlot) :
    ∀ (mem : WorkingMemory) (maxSlots : Nat),
    (mem.slots.map (fun s => s.id)).Nodup →
    (l.map (fun s => s.id)).Nodup →
    (∀ s ∈ l, s.id ∈ mem.slots.map (fun s => s.id)) →
    mem.slots.length ≤ maxSlots + l.length →
    (evictLoop l mem maxSlots).1.slots.length ≤ maxSlots := by
  induction l with
  | nil =>
    intro mem maxSlots _ _ _ hlen
    simp only [evictLoop]
    simpa using hlen
  | cons s rest ih =>
    intro mem maxSlots hnm hnl hsub hlen
    simp only [evictLoop]
    by_cases hgt : mem.slots.length > maxSlots
    · rw [if_pos hgt]
      simp only []
      have hsid : s.id ∈ mem.slots.map (fun s => s.id) := hsub s (by simp)
      have hfl := length_filter_ne_of_nodup mem.slots s.id hnm hsid
      simp only [List.map_cons, List.nodup_cons] at hnl
      rcases hnl with ⟨hs, hrest⟩
      refine ih _ maxSlots ?_ hrest ?_ ?_
      · exact ((List.filter_sublist _).map (fun x : MemSlot => x.id)).nodup hnm
      · intro t ht
        have htid : t.id ∈ mem.slots.map (fun x => x.id) := hsub t (by simp [ht])
        rcases List.mem_map.1 htid with ⟨u, hu, huid⟩
        have htne : ¬ u.id = s.id := by
          intro h
          apply hs
          have hmem : t.id ∈ rest.map (fun x => x.id) := List.mem_map_of_mem _ ht
          rw [← huid, h] at hmem
          exact hmem
        have hmem2 : u.id ∈ (mem.slots.filter (fun t2 => ¬ t2.id = s.id)).map
            (fun x => x.id) :=
          List.mem_map_of_mem _ (List.mem_filter.2 ⟨hu, by simpa using htne⟩)
        rw [huid] at hmem2
        exact hmem2
      · show (mem.slots.filter (fun t => ¬ t.id = s.id)).length ≤ maxSlots + rest.length
        simp only [List.length_cons] at hlen
        omega
    · rw [if_neg hgt]
      show mem.slots.length ≤ maxSlots
      omega

/-- The evicted ids are a prefix of the sorted candidate list. -/
theorem evictLoop_snd_take (l : List MemSlot) :
    ∀ (mem : WorkingMemory) (maxSlots : Nat),
    ∃ k, (evictLoop l mem maxSlots).2 = (l.take k).map (fun s => s.id) := by
  induction l with
  | nil => intro mem maxSlots; exact ⟨0, rfl⟩
  | cons s rest ih =>
    intro mem maxSlots
    simp only [evictLoop]
    by_cases hgt : mem.slots.length > maxSlots
    · rw [if_pos hgt]
      rcases ih { mem with slots := mem.slots.filter (fun t => ¬ t.id = s.id) } maxSlots
        with ⟨k, hk⟩
      refine ⟨k + 1, ?_⟩
      show s.id :: (evictLoop rest
        { mem with slots := mem.slots.filter (fun t => ¬ t.id = s.id) } maxSlots).2 =
        ((s :: rest).take (k + 1)).map (fun s => s.id)
      rw [List.take_succ_cons, List.map_cons, hk]
    · rw [if_neg hgt]
      exact ⟨0, rfl⟩

/-- After enforceLimit the slot count is within the bound. -/
theorem enforceLimit_length (mem : WorkingMemory) (maxSlots : Nat)
    (hn : slotIdsNodup mem) :
    (enforceLimit mem maxSlots).1.slots.length ≤ maxSlots := by
  unfold enforceLimit
  by_cases hle : mem.slots.length ≤ maxSlots
  · rw [if_pos hle]; exact hle
  · rw [if_neg hle]
    have hperm := List.perm_insertionSort (evictLE mem.focus) mem.slots
    show (evictLoop (List.insertionSort (evictLE mem.focus) mem.slots) mem
      maxSlots).1.slots.length ≤ maxSlots
    refine evictLoop_length _ mem maxSlots hn ?_ ?_ ?_
    · exact ((hperm.map (fun x : MemSlot => x.id)).nodup_iff).2 hn
    · intro s hsm
      exact List.mem_map_of_mem _ (hperm.mem_iff.1 hsm)
    · rw [hperm.length_eq]
      omega

/-- The ids evicted by enforceLimit are a prefix of the comparator-sorted
slot list: unfocused first, then lowest confidence, then oldest. -/
theorem enforceLimit_snd_take (mem : WorkingMemory) (maxSlots : Nat) :
    ∃ k, (enforceLimit mem maxSlots).2 =
      ((List.insertionSort (evictLE mem.focus) mem.slots).take k).map (fun s => s.id) := by
  unfold enforceLimit
  by_cases hle : mem.slots.length ≤ maxSlots
  · rw [if_pos hle]; exact ⟨0, rfl⟩
  · rw [if_neg hle]
    exact evictLoop_snd_take _ mem maxSlots

/-- A focused slot is evicted only when every unfocused slot is evicted
too. -/
theorem enforceLimit_focused_last (mem : WorkingMemory) (maxSlots : Nat) :
    ∀ a ∈ mem.slots, a.id ∈ (enforceLimit mem maxSlots).2 → a.id ∈ mem.focus →
    ∀ b ∈ mem.slots, b.id ∉ mem.focus → b.id ∈ (enforceLimit mem maxSlots).2 := by
  intro a ha haev hafoc b hb hbfoc
  rcases enforceLimit_snd_take mem maxSlots with ⟨k, hk⟩
  rw [hk] at haev ⊢
  set sorted := List.insertionSort (evictLE mem.focus) mem.slots with hsorted
  have hsort : List.Sorted (evictLE mem.focus) sorted :=
    List.sorted_insertionSort (evictLE mem.focus) mem.slots
  have hperm := List.perm_insertionSort (evictLE mem.focus) mem.slots
  have hsplit : sorted = sorted.take k ++ sorted.drop k := (List.take_append_drop k sorted).symm
  have hpair : List.Pairwise (evictLE mem.focus) (sorted.take k ++ sorted.drop k) := by
    rw [← hsplit]; exact hsort
  rw [List.pairwise_append] at hpair
  rcases List.mem_map.1 haev with ⟨x, hxk, hxid⟩
  have hbs : b ∈ sorted := hperm.mem_iff.2 hb
  by_cases hbk : b ∈ sorted.take k
  · exact List.mem_map_of_mem _ hbk
  · exfalso
    have hbd : b ∈ sorted.drop k := by
      rcases List.mem_append.1 (hsplit ▸ hbs) with h | h
      · exact absurd h hbk
      · exact h
    have hle := hpair.2.2 x hxk b hbd
    have hxfoc : (evictKey mem.focus x).1 = 1 := by
      simp only [evictKey]
      rw [if_pos]
      rw [hxid]
      show List.elem a.id mem.focus = true
      exact List.elem_iff.mpr hafoc
    have hbfoc' : (evictKey mem.focus b).1 = 0 := by
      simp only [evictKey]
      rw [if_neg]
      intro hc
      exact hbfoc (List.elem_iff.mp hc)
    rcases hle with h | ⟨h, _⟩
    · rw [hxfoc, hbfoc'] at h
      omega
    · rw [hxfoc, hbfoc'] at h
      omega

/-- The end-of-tick decay only removes slots. -/
theorem tickMemory_length_le (mem : WorkingMemory) :
    (tickMemory mem).1.slots.length ≤ mem.slots.length := by
  simp only [tickMemory, List.length_map]
  exact List.length_filter_le _ _

/-- The memory state applyDemonOutput hands to its final enforceLimit step
(writes, then evictions, then focus). -/
def preEnforce (mem : WorkingMemory) (output : DemonOutput) (nextSlotId now : Nat) :
    WorkingMemory :=
  applyFocus (applyEvicts (applyWrites mem output.write nextSlotId now).memory
    output.evict).1 output.focus

/-- Applying a demon output always lands within the slot bound. -/
theorem applyDemonOutput_length (mem : WorkingMemory) (output : DemonOutput)
    (maxSlots nextSlotId now : Nat)
    (h : slotIdsNodup (preEnforce mem output nextSlotId now)) :
    (applyDemonOutput mem output maxSlots nextSlotId now).memory.slots.length ≤ maxSlots := by
  show (enforceLimit (preEnforce mem output nextSlotId now) maxSlots).1.slots.length ≤ maxSlots
  exact enforceLimit_length _ _ h

/-- C4: after each demon output is applied through the orchestrator the slot
count satisfies the bound (enforce_limit runs last in applyDemonOutput), the
end-of-tick decay only shrinks the memory — so after every tick the slot
count is at most max_memory_slots — and enforce_limit evicts a prefix of the
slots sorted unfocused-first, lowest-confidence-first, then oldest-first,
evicting focused slots only when no unfocused slot remains. -/
theorem C4_slot_bound_and_eviction_order :
    (∀ (mem : WorkingMemory) (out : DemonOutput) (maxSlots n t : Nat),
      slotIdsNodup (preEnforce mem out n t) →
      (applyDemonOutput mem out maxSlots n t).memory.slots.length ≤ maxSlots) ∧
    (∀ mem : WorkingMemory, (tickMemory mem).1.slots.length ≤ mem.slots.length) ∧
    (∀ (mem : WorkingMemory) (maxSlots : Nat), slotIdsNodup mem →
      (enforceLimit mem maxSlots).1.slots.length ≤ maxSlots) ∧
    (∀ (mem : WorkingMemory) (maxSlots : Nat), ∃ k, (enforceLimit mem maxSlots).2 =
      ((List.insertionSort (evictLE mem.focus) mem.slots).take k).map (fun s => s.id)) ∧
    (∀ (mem : WorkingMemory) (maxSlots : Nat), ∀ a ∈ mem.slots,
      a.id ∈ (enforceLimit mem maxSlots).2 → a.id ∈ mem.focus →
      ∀ b ∈ mem.slots, b.id ∉ mem.focus → b.id ∈ (enforceLimit mem maxSlots).2) :=
  ⟨applyDemonOutput_length, tickMemory_length_le, enforceLimit_length,
   enforceLimit_snd_take, enforceLimit_focused_last⟩

/-- A two-slot memory with distinct ids, one focused, for the C4 witness. -/
def wSlot (i : String) (c : ℚ) (t : Nat) : MemSlot :=
  { id := i, content := .null, tag := "x", confidence := c,
    source_demon := "d", ttl := 0, created_at := t }

/-- A concrete memory over the slot bound 1. -/
def wMem : WorkingMemory :=
  { slots := [wSlot "a" 0 0, wSlot "b" 1 1], focus := ["b"], tick := 0 }

/-- Witness for C4 at a concrete memory and output. -/
theorem C4_slot_bound_witness :
    (slotIdsNodup (preEnforce wMem emptyOutput 0 0) ∧
      (applyDemonOutput wMem emptyOutput 1 0 0).memory.slots.length ≤ 1) ∧
    (slotIdsNodup wMem ∧ (enforceLimit wMem 1).1.slots.length ≤ 1) :=
  ⟨⟨by unfold slotIdsNodup; decide,
    C4_slot_bound_and_eviction_order.1 wMem emptyOutput 1 0 0
      (by unfold slotIdsNodup; decide)⟩,
   ⟨by unfold slotIdsNodup; decide,
    C4_slot_bound_and_eviction_order.2.2.1 wMem 1 (by unfold slotIdsNodup; decide)⟩⟩

/-! ### C2: repeated identical link calls -/

instance : IsTotal QueryTriple (fun a b => b.relation.weight ≤ a.relation.weight) :=
  ⟨fun a b => le_total b.relation.weight a.relation.weight⟩

instance : IsTrans QueryTriple (fun a b => b.relation.weight ≤ a.relation.weight) :=
  ⟨fun _ _ _ hab hbc => le_trans hbc hab⟩

/-- Query results are always ordered by descending weight. -/
theorem queryWeightsSorted (st : Store) (pat : QueryPattern) :
    List.Sorted (fun a b : QueryTriple => b.relation.weight ≤ a.relation.weight)
      (query st pat) := by
  unfold query
  exact List.Pairwise.sublist (List.take_sublist _ _) (List.sorted_insertionSort _ _)

/-- Two identical link calls on a pristine store. -/
def linkTwice (a t b : String) : LinkResult := link (link emptyStore a t b).store a t b

/-- Three identical link calls on a pristine store. -/
def linkThrice (a t b : String) : LinkResult := link (linkTwice a t b).store a t b

/-- The query pattern for the pair (a, t, b). -/
def pairPattern (a t b : String) : QueryPattern :=
  { fromLabel := some a, relation := some t, toLabel := some b }

/-- C2 counterexample: at the concrete arguments a, is_a, b on a pristine
store, the result set for the pair has two entries after two identical link
calls and three after a third — the third call does grow the result set,
refuting the final clause of the claim. -/
theorem C2_counterexample :
    (query (linkTwice "a" "is_a" "b").store (pairPattern "a" "is_a" "b")).length = 2 ∧
    (query (linkThrice "a" "is_a" "b").store (pairPattern "a" "is_a" "b")).length = 3 ∧
    ¬ ((query (linkThrice "a" "is_a" "b").store (pairPattern "a" "is_a" "b")).length =
       (query (linkTwice "a" "is_a" "b").store (pairPattern "a" "is_a" "b")).length) := by
  decide

set_option maxHeartbeats 2000000 in
/-- C2 amended: the store keeps duplicate edges.  Starting from a pristine
store, after calling link(a, t, b) twice with identical arguments,
relations_from(a, t) contains exactly two edges from a to b, query returns
them ordered by descending weight, and a third identical link(a, t, b) call
grows the result set for that pair to three. -/
theorem C2_link_duplicates (a t b : String) :
    ((relationsFrom (linkTwice a t b).store (linkTwice a t b).fromN.id (some t)).length = 2 ∧
      ∀ p ∈ relationsFrom (linkTwice a t b).store (linkTwice a t b).fromN.id (some t),
        p.2.label = normLabel b) ∧
    (query (linkTwice a t b).store (pairPattern a t b)).length = 2 ∧
    List.Sorted (fun x y : QueryTriple => y.relation.weight ≤ x.relation.weight)
      (query (linkTwice a t b).store (pairPattern a t b)) ∧
    (query (linkThrice a t b).store (pairPattern a t b)).length = 3 := by
  have e01 : ¬ ("n" ++ natStr 0 = "n" ++ natStr 1) := by decide
  have e02 : ¬ ("n" ++ natStr 0 = "n" ++ natStr 2) := by decide
  have e03 : ¬ ("n" ++ natStr 0 = "n" ++ natStr 3) := by decide
  have e12 : ¬ ("n" ++ natStr 1 = "n" ++ natStr 2) := by decide
  have e13 : ¬ ("n" ++ natStr 1 = "n" ++ natStr 3) := by decide
  have e14 : ¬ ("n" ++ natStr 1 = "n" ++ natStr 4) := by decide
  refine ⟨⟨?_, ?_⟩, ?_, queryWeightsSorted _ _, ?_⟩ <;>
    by_cases h : normLabel a = normLabel b <;>
      simp [linkTwice, linkThrice, link, ensureNoun, findNoun, createNoun,
        createRelation, emptyStore, relationsFrom, findNounById, query, queryMatches,
        pairPattern, h, e01, e02, e03, e12, e13, e14,
        List.insertionSort, List.orderedInsert, List.length_take]

/-! ## C7: the transitive inference rule -/

/-- A label that does not mention the key separator bar. -/
def barFree (s : String) : Prop := ('|' : Char) ∉ s.data

instance (s : String) : Decidable (barFree s) := by
  unfold barFree; infer_instance

lemma append_bar_inj : ∀ {xs : List Char} {ys : List Char} {us : List Char}
    {vs : List Char}, ('|' : Char) ∉ xs → ('|' : Char) ∉ us →
    xs ++ '|' :: ys = us ++ '|' :: vs → xs = us ∧ ys = vs := by
  intro xs
  induction xs with
  | nil =>
    intro ys us vs _ hu h
    cases us with
    | nil => simpa using h
    | cons u us =>
      simp only [List.nil_append, List.cons_append, List.cons.injEq] at h
      exact absurd (h.1 ▸ List.mem_cons_self u us) hu
  | cons x xs ih =>
    intro ys us vs hx hu h
    cases us with
    | nil =>
      simp only [List.cons_append, List.nil_append, List.cons.injEq] at h
      exact absurd (h.1 ▸ List.mem_cons_self x xs) hx
    | cons u us =>
      simp only [List.cons_append, List.cons.injEq] at h
      have hx2 : ('|' : Char) ∉ xs := fun hm => hx (List.mem_cons_of_mem _ hm)
      have hu2 : ('|' : Char) ∉ us := fun hm => hu (List.mem_cons_of_mem _ hm)
      obtain ⟨h1, h2⟩ := ih hx2 hu2 h.2
      exact ⟨by rw [h.1, h1], h2⟩

lemma transKey_inj {f t c f2 t2 c2 : String} (hf : barFree f) (ht : barFree t)
    (hf2 : barFree f2) (ht2 : barFree t2) (h : transKey f t c = transKey f2 t2 c2) :
    f = f2 ∧ t = t2 ∧ c = c2 := by
  have hd : f.data ++ '|' :: (t.data ++ '|' :: c.data) =
      f2.data ++ '|' :: (t2.data ++ '|' :: c2.data) := by
    have := congrArg String.data h
    simpa [transKey, String.data_append] using this
  obtain ⟨e1, e2⟩ := append_bar_inj hf hf2 hd
  obtain ⟨e3, e4⟩ := append_bar_inj ht ht2 e2
  exact ⟨String.ext e1, String.ext e3, String.ext e4⟩

/-- The final key set of the inner loop is the emitted keys (reversed) on top
of the initial set. -/
lemma innerTrans_snd (r1 : RelContent) : ∀ (l : List RelContent) (ex : List String),
    (innerTrans r1 l ex).2 = ((innerTrans r1 l ex).1.map relKey).reverse ++ ex := by
  intro l
  induction l with
  | nil => intro ex; simp [innerTrans]
  | cons r2 rest ih =>
    intro ex
    by_cases hc : r2.type = r1.type ∧ r2.from' = r1.to' ∧ ¬ r2.to' = r1.from'
    · by_cases he : transKey r1.from' r1.type r2.to' ∈ ex
      · simp [innerTrans, hc, he, ih]
      · have := ih (transKey r1.from' r1.type r2.to' :: ex)
        simp [innerTrans, hc, he, this, relKey]
    · simp [innerTrans, hc, ih]

lemma innerTrans_mono (r1 : RelContent) (l : List RelContent) (ex : List String)
    {k : String} (h : k ∈ ex) : k ∈ (innerTrans r1 l ex).2 := by
  rw [innerTrans_snd]; exact List.mem_append_right _ h

/-- Soundness of the inner loop. -/
lemma innerTrans_sound (r1 : RelContent) : ∀ (l : List RelContent) (ex : List String),
    ∀ e ∈ (innerTrans r1 l ex).1,
      (∃ r2 ∈ l, r2.type = r1.type ∧ r2.from' = r1.to' ∧ ¬ r2.to' = r1.from' ∧
        e = { from' := r1.from', type := r1.type, to' := r2.to',
              weight := min r1.weight r2.weight * q09 }) ∧ ¬ relKey e ∈ ex := by
  intro l
  induction l with
  | nil => intro ex e he; simp [innerTrans] at he
  | cons r2 rest ih =>
    intro ex e he
    by_cases hc : r2.type = r1.type ∧ r2.from' = r1.to' ∧ ¬ r2.to' = r1.from'
    · by_cases hk : transKey r1.from' r1.type r2.to' ∈ ex
      · simp [innerTrans, hc, hk] at he
        obtain ⟨⟨s, hs, h1⟩, h2⟩ := ih ex e he
        exact ⟨⟨s, List.mem_cons_of_mem _ hs, h1⟩, h2⟩
      · simp only [innerTrans, if_pos hc] at he
        rw [if_neg (fun hm => hk (List.elem_iff.mp hm))] at he
        rcases List.mem_cons.mp he with rfl | he
        · exact ⟨⟨r2, List.mem_cons_self _ _, hc.1, hc.2.1, hc.2.2, rfl⟩, hk⟩
        · obtain ⟨⟨s, hs, h1⟩, h2⟩ :=
            ih (transKey r1.from' r1.type r2.to' :: ex) e he
          exact ⟨⟨s, List.mem_cons_of_mem _ hs, h1⟩,
            fun hm => h2 (List.mem_cons_of_mem _ hm)⟩
    · simp only [innerTrans, if_neg hc] at he
      obtain ⟨⟨s, hs, h1⟩, h2⟩ := ih ex e he
      exact ⟨⟨s, List.mem_cons_of_mem _ hs, h1⟩, h2⟩

/-- The inner loop emits pairwise distinct keys, all fresh. -/
lemma innerTrans_keys (r1 : RelContent) : ∀ (l : List RelContent) (ex : List String),
    ((innerTrans r1 l ex).1.map relKey).Nodup ∧
    ∀ k ∈ (innerTrans r1 l ex).1.map relKey, ¬ k ∈ ex := by
  intro l
  induction l with
  | nil => intro ex; simp [innerTrans]
  | cons r2 rest ih =>
    intro ex
    by_cases hc : r2.type = r1.type ∧ r2.from' = r1.to' ∧ ¬ r2.to' = r1.from'
    · by_cases hk : transKey r1.from' r1.type r2.to' ∈ ex
      · have hr : innerTrans r1 (r2 :: rest) ex = innerTrans r1 rest ex := by
          simp [innerTrans, hc, hk]
        rw [hr]; exact ih ex
      · have hih := ih (transKey r1.from' r1.type r2.to' :: ex)
        have hr : innerTrans r1 (r2 :: rest) ex =
            (RelContent.mk r1.from' r1.type r2.to' (min r1.weight r2.weight * q09) ::
              (innerTrans r1 rest (transKey r1.from' r1.type r2.to' :: ex)).1,
             (innerTrans r1 rest (transKey r1.from' r1.type r2.to' :: ex)).2) := by
          simp [innerTrans, hc, hk]
        rw [hr]
        simp only [List.map_cons, List.nodup_cons]
        have hkey : relKey
            (RelContent.mk r1.from' r1.type r2.to' (min r1.weight r2.weight * q09)) =
            transKey r1.from' r1.type r2.to' := rfl
        refine ⟨⟨?_, hih.1⟩, ?_⟩
        · rw [hkey]
          intro hmem
          exact (hih.2 _ hmem) (List.mem_cons_self _ _)
        · intro k hk2
          rcases List.mem_cons.mp hk2 with rfl | hk2
          · rw [hkey]; exact hk
          · exact fun hkex => hih.2 _ hk2 (List.mem_cons_of_mem _ hkex)
    · have hr : innerTrans r1 (r2 :: rest) ex = innerTrans r1 rest ex := by
        simp [innerTrans, hc]
      rw [hr]; exact ih ex

/-- Completeness of the inner loop: a matching continuation leaves its key in
the final key set. -/
lemma innerTrans_complete (r1 r2 : RelContent) (hty : r2.type = r1.type)
    (hmid : r2.from' = r1.to') (hAC : ¬ r2.to' = r1.from') :
    ∀ (l : List RelContent) (ex : List String), r2 ∈ l →
      transKey r1.from' r1.type r2.to' ∈ (innerTrans r1 l ex).2 := by
  intro l
  induction l with
  | nil => intro ex h; simp at h
  | cons h1 rest ih =>
    intro ex hmem
    rcases List.mem_cons.mp hmem with rfl | hmem
    · have hc : r2.type = r1.type ∧ r2.from' = r1.to' ∧ ¬ r2.to' = r1.from' :=
        ⟨hty, hmid, hAC⟩
      by_cases hk : transKey r1.from' r1.type r2.to' ∈ ex
      · have hr : innerTrans r1 (r2 :: rest) ex = innerTrans r1 rest ex := by
          simp [innerTrans, hc, hk]
        rw [hr]; exact innerTrans_mono _ _ _ hk
      · have hr : (innerTrans r1 (r2 :: rest) ex).2 =
            (innerTrans r1 rest (transKey r1.from' r1.type r2.to' :: ex)).2 := by
          simp [innerTrans, hc, hk]
        rw [hr]; exact innerTrans_mono _ _ _ (List.mem_cons_self _ _)
    · by_cases hc : h1.type = r1.type ∧ h1.from' = r1.to' ∧ ¬ h1.to' = r1.from'
      · by_cases hk : transKey r1.from' r1.type h1.to' ∈ ex
        · have hr : innerTrans r1 (h1 :: rest) ex = innerTrans r1 rest ex := by
            simp [innerTrans, hc, hk]
          rw [hr]; exact ih ex hmem
        · have hr : (innerTrans r1 (h1 :: rest) ex).2 =
              (innerTrans r1 rest (transKey r1.from' r1.type h1.to' :: ex)).2 := by
            simp [innerTrans, hc, hk]
          rw [hr]; exact ih _ hmem
      · have hr : innerTrans r1 (h1 :: rest) ex = innerTrans r1 rest ex := by
          simp [innerTrans, hc]
        rw [hr]; exact ih ex hmem

/-- Soundness of the outer loop. -/
lemma outerTrans_sound (tset : List String) (all : List RelContent) :
    ∀ (l : List RelContent) (ex : List String), ∀ e ∈ outerTrans tset all l ex,
      ∃ s1 ∈ l, tset.contains s1.type = true ∧
        ∃ s2 ∈ all, s2.type = s1.type ∧ s2.from' = s1.to' ∧ ¬ s2.to' = s1.from' ∧
          e = { from' := s1.from', type := s1.type, to' := s2.to',
                weight := min s1.weight s2.weight * q09 } ∧ ¬ relKey e ∈ ex := by
  intro l
  induction l with
  | nil => intro ex e he; simp [outerTrans] at he
  | cons h1 rest ih =>
    intro ex e he
    by_cases hc : tset.contains h1.type
    · simp only [outerTrans, if_pos hc, List.mem_append] at he
      rcases he with he | he
      · obtain ⟨⟨s2, hs2, ha, hb, hd, heq⟩, hfresh⟩ := innerTrans_sound h1 all ex e he
        exact ⟨h1, List.mem_cons_self _ _, hc, s2, hs2, ha, hb, hd, heq, hfresh⟩
      · obtain ⟨s1, hs1, hcon, s2, hs2, ha, hb, hd, heq, hfresh⟩ :=
          ih (innerTrans h1 all ex).2 e he
        exact ⟨s1, List.mem_cons_of_mem _ hs1, hcon, s2, hs2, ha, hb, hd, heq,
          fun hm => hfresh (innerTrans_mono _ _ _ hm)⟩
    · simp only [outerTrans, if_neg hc] at he
      obtain ⟨s1, hs1, hcon, rest2⟩ := ih ex e he
      exact ⟨s1, List.mem_cons_of_mem _ hs1, hcon, rest2⟩

/-- The outer loop emits pairwise distinct keys, all fresh. -/
lemma outerTrans_keys (tset : List String) (all : List RelContent) :
    ∀ (l : List RelContent) (ex : List String),
      ((outerTrans tset all l ex).map relKey).Nodup ∧
      ∀ k ∈ (outerTrans tset all l ex).map relKey, ¬ k ∈ ex := by
  intro l
  induction l with
  | nil => intro ex; simp [outerTrans]
  | cons h1 rest ih =>
    intro ex
    by_cases hc : tset.contains h1.type
    · have hin := innerTrans_keys h1 all ex
      have hout := ih (innerTrans h1 all ex).2
      simp only [outerTrans, if_pos hc, List.map_append]
      constructor
      · refine List.Nodup.append hin.1 hout.1 ?_
        intro k hk1 hk2
        have : k ∈ (innerTrans h1 all ex).2 := by
          rw [innerTrans_snd]
          exact List.mem_append_left _ (List.mem_reverse.mpr hk1)
        exact hout.2 k hk2 this
      · intro k hk
        rcases List.mem_append.mp hk with hk | hk
        · exact hin.2 k hk
        · exact fun hm => hout.2 k hk (innerTrans_mono _ _ _ hm)
    · simpa only [outerTrans, if_neg hc] using ih ex

/-- Completeness of the outer loop. -/
lemma outerTrans_complete (tset : List String) (all : List RelContent)
    (r1 r2 : RelContent) (hcon : tset.contains r1.type)
    (hty : r2.type = r1.type) (hmid : r2.from' = r1.to') (hAC : ¬ r2.to' = r1.from')
    (h2 : r2 ∈ all) :
    ∀ (l : List RelContent) (ex : List String), r1 ∈ l →
      ¬ transKey r1.from' r1.type r2.to' ∈ ex →
      transKey r1.from' r1.type r2.to' ∈ (outerTrans tset all l ex).map relKey := by
  intro l
  induction l with
  | nil => intro ex h; simp at h
  | cons h1 rest ih =>
    intro ex hmem hfresh
    rcases List.mem_cons.mp hmem with rfl | hmem
    · simp only [outerTrans, if_pos hcon, List.map_append, List.mem_append]
      left
      have hk2 := innerTrans_complete r1 r2 hty hmid hAC all ex h2
      rw [innerTrans_snd] at hk2
      rcases List.mem_append.mp hk2 with hk2 | hk2
      · exact List.mem_reverse.mp hk2
      · exact absurd hk2 hfresh
    · by_cases hc : tset.contains h1.type
      · simp only [outerTrans, if_pos hc, List.map_append, List.mem_append]
        by_cases hk : transKey r1.from' r1.type r2.to' ∈
            ((innerTrans h1 all ex).1.map relKey)
        · exact Or.inl hk
        · refine Or.inr (ih _ hmem ?_)
          rw [innerTrans_snd]
          intro hm
          rcases List.mem_append.mp hm with hm | hm
          · exact hk (List.mem_reverse.mp hm)
          · exact hfresh hm
      · simp only [outerTrans, if_neg hc]
        exact ih ex hmem hfresh

/-- C7: for every edge list given to the transitive rule and every transitive
type, if the list contains A to B and B to C of that type with A distinct
from C and the key (A, type, C) absent from the list, then the rule emits
exactly one edge with that key; when the composing pair is weight-unique,
that edge is A to C with weight min(w1, w2) times 0.9; and it emits nothing
else: every emitted edge is such a fresh two-step composite of a transitive
type. Labels are assumed free of the bar character that separates key
components. -/
theorem C7_transitive_rule (rels : List RelContent) (r1 r2 : RelContent)
    (hbar : ∀ r ∈ rels, barFree r.from' ∧ barFree r.type)
    (h1 : r1 ∈ rels) (h2 : r2 ∈ rels)
    (ht : r1.type ∈ transitiveTypeSet)
    (hty : r2.type = r1.type) (hmid : r2.from' = r1.to') (hAC : ¬ r2.to' = r1.from')
    (habs : ∀ r ∈ rels, ¬ relKey r = transKey r1.from' r1.type r2.to')
    (huniq : ∀ s1 ∈ rels, ∀ s2 ∈ rels,
      s1.type = r1.type → s2.type = r1.type → s2.from' = s1.to' →
      s1.from' = r1.from' → s2.to' = r2.to' →
      min s1.weight s2.weight = min r1.weight r2.weight) :
    (((inferTransitive rels transitiveTypeSet).map relKey).count
        (transKey r1.from' r1.type r2.to') = 1) ∧
    (∀ e ∈ inferTransitive rels transitiveTypeSet,
        relKey e = transKey r1.from' r1.type r2.to' →
        e = { from' := r1.from', type := r1.type, to' := r2.to',
              weight := min r1.weight r2.weight * q09 }) ∧
    (∀ e ∈ inferTransitive rels transitiveTypeSet,
        e.type ∈ transitiveTypeSet ∧ ¬ e.to' = e.from' ∧
        (∀ r ∈ rels, ¬ relKey r = relKey e) ∧
        ∃ s1 ∈ rels, ∃ s2 ∈ rels, s1.type = e.type ∧ s2.type = e.type ∧
          s2.from' = s1.to' ∧ e.from' = s1.from' ∧ e.to' = s2.to' ∧
          e.weight = min s1.weight s2.weight * q09) := by
  have hfreshkey : ¬ transKey r1.from' r1.type r2.to' ∈ rels.map relKey := by
    intro hm
    obtain ⟨r, hr, hrk⟩ := List.mem_map.mp hm
    exact habs r hr hrk
  refine ⟨?_, ?_, ?_⟩
  · have hmem := outerTrans_complete transitiveTypeSet rels r1 r2
      (List.elem_iff.mpr ht) hty hmid hAC h2 rels (rels.map relKey) h1 hfreshkey
    have hnd := (outerTrans_keys transitiveTypeSet rels rels (rels.map relKey)).1
    exact List.count_eq_one_of_mem hnd hmem
  · intro e he hke
    obtain ⟨s1, hs1, hcon, s2, hs2, ha, hb, hd, heq, hfresh⟩ :=
      outerTrans_sound transitiveTypeSet rels rels (rels.map relKey) e he
    have hkey2 : transKey s1.from' s1.type s2.to' =
        transKey r1.from' r1.type r2.to' := by
      rw [← hke, heq]; rfl
    obtain ⟨e1, e2, e3⟩ := transKey_inj (hbar s1 hs1).1 (hbar s1 hs1).2
      (hbar r1 h1).1 (hbar r1 h1).2 hkey2
    have hw : min s1.weight s2.weight = min r1.weight r2.weight :=
      huniq s1 hs1 s2 hs2 e2 (ha.trans e2) hb e1 e3
    rw [heq]
    simp only [RelContent.mk.injEq]
    exact ⟨e1, e2, e3, by rw [hw]⟩
  · intro e he
    obtain ⟨s1, hs1, hcon, s2, hs2, ha, hb, hd, heq, hfresh⟩ :=
      outerTrans_sound transitiveTypeSet rels rels (rels.map relKey) e he
    refine ⟨?_, ?_, ?_, s1, hs1, s2, hs2, ?_, ?_, ?_, ?_, ?_, ?_⟩
    · rw [heq]; exact List.elem_iff.mp hcon
    · rw [heq]; exact hd
    · intro r hr hkr
      exact hfresh (List.mem_map.mpr ⟨r, hr, hkr⟩)
    · rw [heq]
    · rw [heq]; exact ha
    · exact hb
    · rw [heq]
    · rw [heq]
    · rw [heq]

def w7rels : List RelContent :=
  [{ from' := "dog", type := "is_a", to' := "mammal", weight := 1 },
   { from' := "mammal", type := "is_a", to' := "animal", weight := 1 }]

/-- Witness for C7 at a concrete two-edge chain. -/
theorem C7_transitive_rule_witness :
    (((inferTransitive w7rels transitiveTypeSet).map relKey).count
        (transKey "dog" "is_a" "animal") = 1) ∧
    (∀ e ∈ inferTransitive w7rels transitiveTypeSet,
        relKey e = transKey "dog" "is_a" "animal" →
        e = { from' := "dog", type := "is_a", to' := "animal",
              weight := min (1 : ℚ) 1 * q09 }) := by
  have h := C7_transitive_rule w7rels
    { from' := "dog", type := "is_a", to' := "mammal", weight := 1 }
    { from' := "mammal", type := "is_a", to' := "animal", weight := 1 }
    (by decide) (by decide) (by decide) (by decide) (by decide) (by decide)
    (by decide) (by decide) (by decide)
  exact ⟨h.1, h.2.1⟩

/-! ## C5, C9, C10: scheduler properties -/

/-- The learn pass never changes the recorded ticks. -/
lemma applyLearn_ticks (reg : List Demon) (cfg : HypervisorConfig) (ls : LoopState) :
    (applyLearn reg cfg ls).ticks = ls.ticks := by
  unfold applyLearn
  split
  · split
    · rfl
    · rfl
  · rfl

/-- One tick appends exactly one tick record. -/
lemma runTick_ticks_length (reg : List Demon) (cfg : HypervisorConfig) (ls : LoopState) :
    (runTick reg cfg ls).ticks.length = ls.ticks.length + 1 := by
  simp [runTick]

/-- The tick loop adds at most fuel tick records. -/
lemma tickLoop_ticks_le (reg : List Demon) (cfg : HypervisorConfig) :
    ∀ (fuel : Nat) (ls : LoopState),
      (tickLoop reg cfg fuel ls).ticks.length ≤ ls.ticks.length + fuel := by
  intro fuel
  induction fuel with
  | zero => intro ls; simp [tickLoop]
  | succ n ih =>
    intro ls
    simp only [tickLoop]
    split
    · omega
    · split
      · rw [runTick_ticks_length]; omega
      · calc (tickLoop reg cfg n (runTick reg cfg ls)).ticks.length ≤
              (runTick reg cfg ls).ticks.length + n := ih _
          _ = ls.ticks.length + 1 + n := by rw [runTick_ticks_length]
          _ ≤ ls.ticks.length + (n + 1) := by omega

/-- Merging never introduces an id absent from both lists. -/
lemma mergePending_not_mem :
    ∀ (next pending : List String) (c : String),
      ¬ c ∈ pending → ¬ c ∈ next → ¬ c ∈ mergePending pending next := by
  intro next
  induction next with
  | nil => intro pending c h1 _; exact h1
  | cons i rest ih =>
    intro pending c h1 h2
    have hci : ¬ c = i := fun h => h2 (h ▸ List.mem_cons_self _ _)
    have h2r : ¬ c ∈ rest := fun h => h2 (List.mem_cons_of_mem _ h)
    have he : mergePending pending (i :: rest) =
        mergePending (if pending.contains i then pending else pending ++ [i]) rest := rfl
    rw [he]
    refine ih _ c ?_ h2r
    by_cases hc : pending.contains i
    · rw [if_pos hc]; exact h1
    · rw [if_neg hc]
      intro hm
      rcases List.mem_append.mp hm with hm | hm
      · exact h1 hm
      · exact hci (List.mem_singleton.mp hm)

/-- A chain hint naming an already fired id is never added to nextDemons. -/
lemma fireLoop_discard (reg : List Demon) (cfg : HypervisorConfig)
    (startNow now tick : Nat) :
    ∀ (queue : List String) (fs : FireState) (c : String),
      c ∈ fs.fired → ¬ c ∈ fs.nextDemons →
      ¬ c ∈ (fireLoop reg cfg startNow now tick queue fs).nextDemons := by
  intro queue
  induction queue with
  | nil => intro fs c h1 h2; exact h2
  | cons demonId rest ih =>
    intro fs c h1 h2
    simp only [fireLoop]
    split
    · exact ih fs c h1 h2
    · split
      · exact ih _ c (List.mem_append_left _ h1) h2
      · split
        · exact h2
        · split
          · exact ih _ c (List.mem_append_left _ h1) h2
          · split
            · exact List.not_mem_nil c
            · refine ih _ c ?_ ?_
              · split
                · exact List.mem_append_left _ h1
                · exact List.mem_append_left _ h1
              · split
                · intro hc
                  rcases List.mem_append.mp hc with hc | hc
                  · exact h2 hc
                  · have hp := List.of_mem_filter hc
                    exact (of_decide_eq_true hp)
                      (List.elem_iff.mpr (List.mem_append_left _ h1))
                · exact h2

/-- No demon fires twice within one tick. -/
lemma fireLoop_fired_nodup (reg : List Demon) (cfg : HypervisorConfig)
    (startNow now tick : Nat) :
    ∀ (queue : List String) (fs : FireState),
      fs.demonsFired.Nodup → (∀ d ∈ fs.demonsFired, d ∈ fs.fired) →
      (fireLoop reg cfg startNow now tick queue fs).demonsFired.Nodup := by
  intro queue
  induction queue with
  | nil => intro fs hnd _; exact hnd
  | cons demonId rest ih =>
    intro fs hnd hsub
    simp only [fireLoop]
    split
    · exact ih fs hnd hsub
    · rename_i hni
      have hfree : ¬ demonId ∈ fs.demonsFired :=
        fun hm => hni (List.elem_iff.mpr (hsub _ hm))
      have hnd2 : (fs.demonsFired ++ [demonId]).Nodup :=
        List.Nodup.append hnd (List.nodup_singleton _)
          (List.disjoint_singleton.mpr hfree)
      have hsub1 : ∀ d ∈ fs.demonsFired, d ∈ fs.fired ++ [demonId] :=
        fun d hd => List.mem_append_left _ (hsub d hd)
      have hsub2 : ∀ d ∈ fs.demonsFired ++ [demonId], d ∈ fs.fired ++ [demonId] := by
        intro d hd
        rcases List.mem_append.mp hd with hd | hd
        · exact List.mem_append_left _ (hsub d hd)
        · exact List.mem_append_right _ hd
      split
      · exact ih _ hnd hsub1
      · split
        · exact hnd
        · split
          · exact ih _ hnd hsub1
          · split
            · split
              · exact hnd2
              · exact hnd2
            · refine ih _ ?_ ?_
              · split
                · exact hnd2
                · exact hnd2
              · split
                · exact hsub2
                · exact hsub2

/-- C5: for every demon registry, hypervisor state and input string,
processInput returns normally (it is a total function, demon errors being
caught inside the fire loop) and its response is a non-empty string: the
canonical fallback text is substituted when no demon responded. -/
theorem C5_process_response_nonempty (reg : List Demon) (state : HypervisorState)
    (userInput : String) : ¬ (processInput reg state userInput).response = "" := by
  show ¬ finalizeResponse (processInputCore reg state userInput).response = ""
  unfold finalizeResponse
  split
  · decide
  · rename_i h; exact h

/-- Witness for C5 at a concrete state and input. -/
theorem C5_process_response_nonempty_witness :
    ¬ (processInput [] (createHypervisor emptyStore DEFAULT_CONFIG 0) "hi").response
      = "" :=
  C5_process_response_nonempty [] (createHypervisor emptyStore DEFAULT_CONFIG 0) "hi"

/-- C9: the number of ticks of a turn is at most maxTicksPerTurn; the tick
loop is a no-op once the queue is empty; and the loop returns right after a
tick that produced a response and left the queue empty. -/
theorem C9_tick_bound_and_stop (reg : List Demon) (state : HypervisorState)
    (userInput : String) (cfg : HypervisorConfig) :
    (processInput reg state userInput).ticks.length ≤ state.config.maxTicksPerTurn ∧
    (∀ (fuel : Nat) (ls : LoopState), ls.pending = [] →
      tickLoop reg cfg fuel ls = ls) ∧
    (∀ (fuel : Nat) (ls : LoopState), ¬ ls.pending.isEmpty = true →
      ¬ (runTick reg cfg ls).response = "" →
      (runTick reg cfg ls).pending.isEmpty = true →
      tickLoop reg cfg (fuel + 1) ls = runTick reg cfg ls) := by
  refine ⟨?_, ?_, ?_⟩
  · have e : (processInput reg state userInput).ticks =
        (tickLoop reg state.config state.config.maxTicksPerTurn
          (initialLoopState reg state userInput)).ticks :=
      applyLearn_ticks reg state.config _
    rw [e]
    have h := tickLoop_ticks_le reg state.config state.config.maxTicksPerTurn
      (initialLoopState reg state userInput)
    simpa [initialLoopState] using h
  · intro fuel ls h
    cases fuel with
    | zero => rfl
    | succ n => simp [tickLoop, h]
  · intro fuel ls h1 h2 h3
    simp only [tickLoop]
    rw [if_neg h1, if_pos (And.intro h2 h3)]

/-- A loop state with an empty queue, used by the C9 witness. -/
def w9ls : LoopState :=
  { memory := createWorkingMemory, store := emptyStore, pending := [],
    response := "", ticks := [], allActions := [], nextSlotId := 0, now := 0,
    randIdx := 0, writeLog := [] }

/-- Witness for C9 at a concrete state, input and loop state. -/
theorem C9_tick_bound_and_stop_witness :
    (processInput [] (createHypervisor emptyStore DEFAULT_CONFIG 0) "hi").ticks.length
      ≤ (createHypervisor emptyStore DEFAULT_CONFIG 0).config.maxTicksPerTurn ∧
    tickLoop [] DEFAULT_CONFIG 3 w9ls = w9ls :=
  ⟨(C9_tick_bound_and_stop [] (createHypervisor emptyStore DEFAULT_CONFIG 0) "hi"
      DEFAULT_CONFIG).1,
   (C9_tick_bound_and_stop [] (createHypervisor emptyStore DEFAULT_CONFIG 0) "hi"
      DEFAULT_CONFIG).2.1 3 w9ls rfl⟩

/-- C10: a chain hint naming a demon id that already fired in the same tick
is discarded entirely: the fire loop never adds such an id to nextDemons, a
demon id never appears twice among the demons fired in a tick, and an id
absent from both the remaining queue and the collected hints is not pending
on the next tick, so the recruitment is lost rather than deferred. -/
theorem C10_chain_hint_discarded (reg : List Demon) (cfg : HypervisorConfig)
    (startNow now tick : Nat) :
    (∀ (queue : List String) (fs : FireState) (c : String),
        c ∈ fs.fired → ¬ c ∈ fs.nextDemons →
        ¬ c ∈ (fireLoop reg cfg startNow now tick queue fs).nextDemons) ∧
    (∀ (queue : List String) (fs : FireState),
        fs.demonsFired.Nodup → (∀ d ∈ fs.demonsFired, d ∈ fs.fired) →
        (fireLoop reg cfg startNow now tick queue fs).demonsFired.Nodup) ∧
    (∀ (ls : LoopState) (c : String),
        ¬ c ∈ ls.pending.drop cfg.maxDemonsPerTick →
        ¬ c ∈ (tickFire reg cfg ls).nextDemons →
        ¬ c ∈ (runTick reg cfg ls).pending) := by
  refine ⟨fireLoop_discard reg cfg startNow now tick,
    fireLoop_fired_nodup reg cfg startNow now tick, ?_⟩
  intro ls c h1 h2
  show ¬ c ∈ mergePending
    (if (tickFire reg cfg ls).clearPending then []
      else ls.pending.drop cfg.maxDemonsPerTick)
    (tickFire reg cfg ls).nextDemons
  refine mergePending_not_mem _ _ c ?_ h2
  split
  · exact List.not_mem_nil c
  · exact h1

/-- A mid-tick fire state where the parse demon has already fired, used by
the C10 witness. -/
def w10fs : FireState :=
  { memory := createWorkingMemory, store := emptyStore, response := "",
    fired := ["parse"], demonsFired := ["parse"], slotsWritten := [],
    slotsEvicted := [], tickActions := [], nextDemons := [], clearPending := false,
    nextSlotId := 0, randIdx := 0, writeLog := [] }

/-- Witness for C10 at a concrete registry and fire state. -/
theorem C10_chain_hint_discarded_witness :
    ¬ "parse" ∈ (fireLoop DEMONS DEFAULT_CONFIG 0 0 0 ["infer"] w10fs).nextDemons :=
  (C10_chain_hint_discarded DEMONS DEFAULT_CONFIG 0 0 0).1 ["infer"] w10fs "parse"
    (by decide) (by decide)

/-! ## C1, C3, C6: the three scenario turns -/

/-- The full turn of the relation-learning scenario: empty store, input
about photosynthesis. -/
def c1Result : ProcessResult :=
  processInput DEMONS (createHypervisor emptyStore DEFAULT_CONFIG 0)
    "photosynthesis produces oxygen"

/-- The query pattern of the relation-learning scenario. -/
def producesPattern : QueryPattern :=
  { fromLabel := some "photosynthesis", relation := some "produces",
    toLabel := some "oxygen" }

/-- Every relation extracted from raw input carries one of the seven
pattern types of extractImpliedRelations. -/
lemma extractImpliedRelations_types (text : String) :
    ∀ r ∈ extractImpliedRelations text,
      r.type ∈ ["is_a", "causes", "has", "part_of", "requires", "equals",
        "used_for"] := by
  intro r hr
  simp only [extractImpliedRelations, List.mem_append, List.mem_map] at hr
  rcases hr with ((((((⟨p, hp, rfl⟩ | ⟨p, hp, rfl⟩) | ⟨p, hp, rfl⟩) |
    ⟨p, hp, rfl⟩) | ⟨p, hp, rfl⟩) | ⟨p, hp, rfl⟩) | ⟨p, hp, rfl⟩) <;> simp

/-- C1 counterexample: on an empty store, processing the input about
photosynthesis leaves a graph where the produces query returns zero
triples, not exactly one. -/
theorem C1_counterexample :
    (query c1Result.state.store producesPattern).length = 0 ∧
    ¬ (query c1Result.state.store producesPattern).length = 1 := by
  decide

/-- C1 amended: the raw-input relation extraction of the learn demon has no
produces pattern (every extracted relation has one of the seven types
is_a, causes, has, part_of, requires, equals, used_for), so the scenario
turn ends with five nouns, zero relations and an empty produces query; the
turn runs the three expected tick rounds. -/
theorem C1_no_produces_pattern :
    (∀ (text : String), ∀ r ∈ extractImpliedRelations text,
        r.type ∈ ["is_a", "causes", "has", "part_of", "requires", "equals",
          "used_for"]) ∧
    (query c1Result.state.store producesPattern).length = 0 ∧
    (graphStats c1Result.state.store).nouns = 5 ∧
    (graphStats c1Result.state.store).relations = 0 ∧
    c1Result.ticks.map (fun t => t.demons_fired) =
      [["parse"], ["relate", "infer", "decompose"], ["question"]] := by
  refine ⟨fun text => extractImpliedRelations_types text, ?_, ?_, ?_, ?_⟩ <;>
    decide

/-- Witness for C1 at a concrete input of the is-a pattern. -/
theorem C1_no_produces_pattern_witness :
    ({ from' := "a", type := "is_a", to' := "b" } : ImpliedRel).type ∈
      ["is_a", "causes", "has", "part_of", "requires", "equals", "used_for"] :=
  C1_no_produces_pattern.1 "a is a b" { from' := "a", type := "is_a", to' := "b" }
    (by decide)

/-- The pre-populated store of the transitive-inference scenario. -/
def c3Store : Store :=
  (link (link emptyStore "dog" "is_a" "mammal").store "mammal" "is_a" "animal").store

/-- The full turn of the transitive-inference scenario. -/
def c3Result : ProcessResult :=
  processInput DEMONS (createHypervisor c3Store DEFAULT_CONFIG 0)
    "is a dog an animal?"

/-- C3 counterexample: with dog is_a mammal and mammal is_a animal
pre-populated, the turn on the question input never writes an
inferred_relation slot (the write log records every slot written at any
point of the turn), although the infer demon does fire in the second tick. -/
theorem C3_counterexample :
    (c3Result.state.writeLog.filter
      (fun s => s.tag = "inferred_relation")).length = 0 ∧
    c3Result.ticks.map (fun t => t.demons_fired) =
      [["parse"], ["relate", "infer", "question"]] := by
  decide

/-- C3 amended: on the transitive-inference scenario the turn writes no
inferred_relation slot at any point; the only hierarchy slot written
records dog with parent mammal (the relate demon loads relations of the
mentioned noun phrases only, and the infer demon works from relation and
context_fact slots, none of which exist here); the turn runs parse then
relate, infer, question. -/
theorem C3_hierarchy_only :
    (c3Result.state.writeLog.filter
      (fun s => s.tag = "inferred_relation")).length = 0 ∧
    (c3Result.state.writeLog.filter (fun s => s.tag = "hierarchy")).map
      (fun s => (jGetStr s.content "noun", jGetStr s.content "is_a")) =
      [("dog", "mammal")] ∧
    c3Result.ticks.map (fun t => t.demons_fired) =
      [["parse"], ["relate", "infer", "question"]] := by
  decide

/-- The full turn of the greeting scenario at a given random draw. -/
def c6Run (r : Nat) : ProcessResult :=
  processInput DEMONS (createHypervisor emptyStore DEFAULT_CONFIG r) "hi"

/-- C6 counterexample: after the greeting turn on an empty store the graph
holds one noun (the learn pass persists the noun phrase hi), not zero. -/
theorem C6_counterexample :
    (graphStats (c6Run 0).state.store).nouns = 1 ∧
    ¬ (graphStats (c6Run 0).state.store).nouns = 0 := by
  decide

/-- C6 amended: for every random draw, the greeting turn detects intent
greeting, answers with the drawn greeting template, runs exactly the two
tick rounds parse then question, creates no relations, and leaves exactly
one noun in the graph (hi survives the stop-word filter, so the post-turn
learn pass persists it). -/
theorem C6_greeting (r : Nat) (h : r < 4) :
    ((c6Run r).state.writeLog.filter (fun s => s.tag = "intent")).map
      (fun s => jStr s.content) = ["greeting"] ∧
    (c6Run r).response = greetingTemplates.getD r "" ∧
    (c6Run r).response ∈ greetingTemplates ∧
    (c6Run r).ticks.map (fun t => t.demons_fired) = [["parse"], ["question"]] ∧
    (c6Run r).state.store.relations.length = 0 ∧
    (graphStats (c6Run r).state.store).nouns = 1 := by
  interval_cases r <;> decide

/-- Witness for C6 at the first greeting template. -/
theorem C6_greeting_witness :
    (0 : Nat) < 4 ∧
    ((c6Run 0).state.writeLog.filter (fun s => s.tag = "intent")).map
      (fun s => jStr s.content) = ["greeting"] :=
  ⟨by decide, (C6_greeting 0 (by decide)).1⟩

end WorldTutor
